import Mathlib

/-!
A shallow embedding of `caffe2/python/layer_model_helper.py` (class
`LayerModelHelper`) and proofs about its bookkeeping behaviour: global
constant deduplication, shared-parameter shape validation, per-parameter
optimizer and regularizer tracking, loss aggregation, the metrics schema,
layer-name generation and the write-once loss / output-schema properties.

Python dictionaries are embedded as insertion-ordered association lists
(`alookup` / `aset` mirror `d[k]` and `d[k] = v`), Python `assert` /
`raise` as an `Except String` result paired with the state at the moment
the exception escapes, and the mutable `LayerModelHelper` object as an
explicit `ModelState` record.
-/

/-- Lookup in an insertion-ordered association list: Python `d[k]` /
`d.get(k)`; returns the value at the first matching key. -/
def alookup {α : Type} : List (String × α) → String → Option α
  | [], _ => none
  | (k', v) :: t, k => if k' = k then some v else alookup t k

/-- Update in an insertion-ordered association list: Python `d[k] = v`.
An existing key keeps its position (value replaced in place); a new key is
appended at the end, matching Python dict insertion order. -/
def aset {α : Type} : List (String × α) → String → α → List (String × α)
  | [], k, v => [(k, v)]
  | (k', v') :: t, k, v =>
    if k' = k then (k, v) :: t else (k', v') :: aset t k v

/-- The keys of an association list, in order. -/
def akeys {α : Type} : List (String × α) → List String
  | [] => []
  | (k, _) :: t => k :: akeys t

theorem alookup_aset_self {α : Type} (l : List (String × α)) (k : String) (v : α) :
    alookup (aset l k v) k = some v := by
  induction l with
  | nil => simp [aset, alookup]
  | cons p t ih =>
    obtain ⟨k', v'⟩ := p
    by_cases h : k' = k
    · simp [aset, h, alookup]
    · simp [aset, h, alookup, ih]

theorem alookup_aset_other {α : Type} (l : List (String × α)) (k k0 : String) (v : α)
    (h : k ≠ k0) : alookup (aset l k v) k0 = alookup l k0 := by
  induction l with
  | nil => simp [aset, alookup, h]
  | cons p t ih =>
    obtain ⟨k', v'⟩ := p
    by_cases hk : k' = k
    · subst hk
      simp [aset, alookup, h, ih]
    · simp [aset, hk, alookup, ih]

theorem akeys_aset_mem {α : Type} (l : List (String × α)) (k : String) (v : α)
    (h : k ∈ akeys l) : akeys (aset l k v) = akeys l := by
  induction l with
  | nil => simp [akeys] at h
  | cons p t ih =>
    obtain ⟨k', v'⟩ := p
    by_cases hk : k' = k
    · subst hk; simp [aset, akeys]
    · rw [akeys, List.mem_cons] at h
      rcases h with h | h
      · exact absurd h.symm hk
      · simp [aset, hk, akeys, ih h]

theorem akeys_aset_not_mem {α : Type} (l : List (String × α)) (k : String) (v : α)
    (h : k ∉ akeys l) : akeys (aset l k v) = akeys l ++ [k] := by
  induction l with
  | nil => simp [aset, akeys]
  | cons p t ih =>
    obtain ⟨k', v'⟩ := p
    rw [akeys, List.mem_cons] at h
    push_neg at h
    simp [aset, Ne.symm h.1, akeys, ih h.2]

theorem akeys_aset_nodup {α : Type} (l : List (String × α)) (k : String) (v : α)
    (h : (akeys l).Nodup) : (akeys (aset l k v)).Nodup := by
  by_cases hm : k ∈ akeys l
  · rw [akeys_aset_mem l k v hm]; exact h
  · rw [akeys_aset_not_mem l k v hm]
    exact List.Nodup.append h (List.nodup_singleton k) (by simpa using hm)

theorem alookup_isSome_of_mem_akeys {α : Type} (l : List (String × α)) (k : String)
    (h : k ∈ akeys l) : (alookup l k).isSome := by
  induction l with
  | nil => simp [akeys] at h
  | cons p t ih =>
    obtain ⟨k', v'⟩ := p
    by_cases hk : k' = k
    · simp [alookup, hk]
    · rw [akeys, List.mem_cons] at h
      rcases h with h | h
      · exact absurd h.symm hk
      · simpa [alookup, hk] using ih h

theorem mem_akeys_of_alookup {α : Type} (l : List (String × α)) (k : String) (v : α)
    (h : alookup l k = some v) : k ∈ akeys l := by
  induction l with
  | nil => simp [alookup] at h
  | cons p t ih =>
    obtain ⟨k', v'⟩ := p
    by_cases hk : k' = k
    · rw [akeys]; exact hk ▸ List.mem_cons_self k' _
    · rw [alookup, if_neg hk] at h
      rw [akeys]
      exact List.mem_cons_of_mem k' (ih h)

theorem alookup_none_of_not_mem_akeys {α : Type} (l : List (String × α)) (k : String)
    (h : k ∉ akeys l) : alookup l k = none := by
  cases hl : alookup l k with
  | none => rfl
  | some v => exact absurd (mem_akeys_of_alookup l k v hl) h

/-- Decimal representation of a natural number, as produced by Python
`str(index)` for the nonnegative indices used in the `_auto_` loops. -/
def natToDec (n : Nat) : String :=
  if n = 0 then "0" else ⟨((Nat.digits 10 n).reverse.map Nat.digitChar)⟩

/-- Inverse of `Nat.digitChar` on decimal digits. -/
def decVal (c : Char) : Nat := c.toNat - 48

theorem decVal_digitChar : ∀ d, d < 10 → decVal (Nat.digitChar d) = d := by decide

theorem map_decVal_digits (k : Nat) :
    ((Nat.digits 10 k).reverse.map Nat.digitChar).map decVal
      = (Nat.digits 10 k).reverse := by
  rw [List.map_map]
  calc ((Nat.digits 10 k).reverse.map (decVal ∘ Nat.digitChar))
      = (Nat.digits 10 k).reverse.map id := by
        apply List.map_congr_left
        intro d hd
        exact decVal_digitChar d
          (Nat.digits_lt_base (by norm_num) (List.mem_reverse.mp hd))
    _ = (Nat.digits 10 k).reverse := List.map_id _

theorem natToDec_ne_zero_str (n : Nat) (hn : n ≠ 0) : natToDec n ≠ "0" := by
  intro h
  rw [natToDec, if_neg hn] at h
  have hdata : ((Nat.digits 10 n).reverse.map Nat.digitChar) = ['0'] :=
    congrArg String.data h
  have hval := congrArg (List.map decVal) hdata
  rw [map_decVal_digits n] at hval
  have hdig : Nat.digits 10 n = [decVal '0'] := by
    have := congrArg List.reverse hval
    simpa using this
  have : n = Nat.ofDigits 10 [decVal '0'] := by
    rw [← hdig, Nat.ofDigits_digits]
  rw [this] at hn
  exact hn (by decide)

theorem natToDec_injective : Function.Injective natToDec := by
  intro m n h
  by_cases hm : m = 0 <;> by_cases hn : n = 0
  · rw [hm, hn]
  · exact absurd (show natToDec n = "0" by rw [← h, hm]; rfl) (natToDec_ne_zero_str n hn)
  · exact absurd (show natToDec m = "0" by rw [h, hn]; rfl) (natToDec_ne_zero_str m hm)
  · rw [natToDec, if_neg hm, natToDec, if_neg hn] at h
    have hdata : ((Nat.digits 10 m).reverse.map Nat.digitChar)
        = ((Nat.digits 10 n).reverse.map Nat.digitChar) :=
      congrArg String.data h
    have hval := congrArg (List.map decVal) hdata
    rw [map_decVal_digits m, map_decVal_digits n] at hval
    have hdig : Nat.digits 10 m = Nat.digits 10 n := by
      have := congrArg List.reverse hval
      simpa using this
    exact Nat.digits_inj_iff.mp hdig

theorem string_append_left_cancel (s t u : String) (h : s ++ t = s ++ u) : t = u := by
  have h2 := congrArg String.data h
  simp [String.data_append] at h2
  cases t; cases u; simp_all

/-- The `i`-th collision-avoidance candidate of the Python pattern
`while name in used: name = base + sep + str(index)`. -/
def candName (base sep : String) (i : Nat) : String :=
  base ++ sep ++ natToDec i

theorem candName_injective (base sep : String) :
    Function.Injective (candName base sep) := by
  intro i j h
  unfold candName at h
  exact natToDec_injective (string_append_left_cancel (base ++ sep) _ _ h)

/-- The body of the Python `while name in used` search, with explicit
fuel; `fuel = used.length + 1` always suffices (see `exists_fresh_cand`). -/
def freshLoop (used : List String) (base sep : String) : Nat → Nat → String
  | 0, i => candName base sep i
  | fuel + 1, i =>
    if candName base sep i ∈ used then freshLoop used base sep fuel (i + 1)
    else candName base sep i

theorem freshLoop_spec (used : List String) (base sep : String) :
    ∀ fuel start, (∃ j, j < fuel ∧ candName base sep (start + j) ∉ used) →
    ∃ j, j < fuel ∧ freshLoop used base sep fuel start = candName base sep (start + j) ∧
      candName base sep (start + j) ∉ used ∧
      ∀ k, k < j → candName base sep (start + k) ∈ used := by
  intro fuel
  induction fuel with
  | zero => intro start ⟨j, hj, _⟩; exact absurd hj (Nat.not_lt_zero j)
  | succ fuel ih =>
    intro start ⟨j, hj, hfresh⟩
    by_cases hc : candName base sep start ∈ used
    · have hj0 : j ≠ 0 := by
        intro h0; rw [h0] at hfresh; simp at hfresh; exact hfresh hc
      obtain ⟨j', rfl⟩ := Nat.exists_eq_succ_of_ne_zero hj0
      have hfresh' : candName base sep (start + 1 + j') ∉ used := by
        have harith : start + 1 + j' = start + (j' + 1) := by omega
        rw [harith]; exact hfresh
      obtain ⟨j2, hj2, heq, hfr, hall⟩ :=
        ih (start + 1) ⟨j', by omega, hfresh'⟩
      refine ⟨j2 + 1, by omega, ?_, ?_, ?_⟩
      · rw [freshLoop, if_pos hc, heq]
        congr 1
        omega
      · have harith : start + (j2 + 1) = start + 1 + j2 := by omega
        rw [harith]; exact hfr
      · intro k hk
        cases k with
        | zero => simpa using hc
        | succ k' =>
          have harith : start + (k' + 1) = start + 1 + k' := by omega
          rw [harith]
          exact hall k' (by omega)
    · exact ⟨0, by omega, by rw [freshLoop, if_neg (by simpa using hc)]; simp,
        by simpa using hc, fun k hk => absurd hk (Nat.not_lt_zero k)⟩

theorem exists_fresh_cand (used : List String) (base sep : String) :
    ∃ j, j < used.length + 1 ∧ candName base sep j ∉ used := by
  by_contra hall
  push_neg at hall
  set L := (List.range (used.length + 1)).map (candName base sep) with hL
  have hnd : L.Nodup :=
    (List.nodup_range (used.length + 1)).map (candName_injective base sep)
  have hsub : ∀ x ∈ L, x ∈ used := by
    intro x hx
    rw [hL] at hx
    simp at hx
    obtain ⟨j, hj, rfl⟩ := hx
    exact hall j hj
  have hcard1 : L.toFinset.card = used.length + 1 := by
    rw [List.toFinset_card_of_nodup hnd, hL]
    simp
  have hsubf : L.toFinset ⊆ used.toFinset := by
    intro x hx
    rw [List.mem_toFinset] at hx ⊢
    exact hsub x hx
  have hle1 := Finset.card_le_card hsubf
  have hle2 := List.toFinset_card_le used
  omega

/-- The full Python collision-avoidance search: return `base` when unused,
otherwise the first fresh `base ++ sep ++ str(i)`. -/
def nextFreshName (used : List String) (base sep : String) : String :=
  if base ∈ used then freshLoop used base sep (used.length + 1) 0 else base

theorem nextFreshName_of_not_mem (used : List String) (base sep : String)
    (h : base ∉ used) : nextFreshName used base sep = base := by
  simp [nextFreshName, h]

theorem nextFreshName_spec_mem (used : List String) (base sep : String)
    (h : base ∈ used) :
    ∃ i, nextFreshName used base sep = candName base sep i ∧
      candName base sep i ∉ used ∧
      ∀ k, k < i → candName base sep k ∈ used := by
  obtain ⟨j, hj, hfr⟩ := exists_fresh_cand used base sep
  obtain ⟨i, _, heq, hfr', hall⟩ :=
    freshLoop_spec used base sep (used.length + 1) 0 ⟨j, hj, by simpa using hfr⟩
  exact ⟨i, by simpa [nextFreshName, h] using heq, by simpa using hfr',
    fun k hk => by simpa using hall k hk⟩

theorem nextFreshName_not_mem (used : List String) (base sep : String) :
    nextFreshName used base sep ∉ used := by
  by_cases h : base ∈ used
  · obtain ⟨i, heq, hfr, _⟩ := nextFreshName_spec_mem used base sep h
    rw [heq]; exact hfr
  · rw [nextFreshName_of_not_mem used base sep h]; exact h

/-- Attribute values carried by an operator definition (`shape=...`,
`values=...`, and the keyword arguments of a parameter initializer). -/
inductive AttrVal : Type
  | intsV (l : List Int)
  | ratsV (l : List Rat)
deriving DecidableEq, Repr

/-- An operator as produced by `core.CreateOperator(op_type, [], output,
**attrs)`: the fills used here have no inputs, one output blob, keyword
attributes, and a `debug_info` field that differs between call sites. -/
structure OperatorDef : Type where
  op_type : String
  output : String
  attrs : List (String × AttrVal)
  debug_info : String
deriving DecidableEq, Repr

/-- Python `op_equal` from `maybe_add_global_constant`: compare two operators
after clearing the `debug_info` field of both copies. -/
def op_equal (a b : OperatorDef) : Bool :=
  decide ({ a with debug_info := "" } = { b with debug_info := "" })

/-- The numpy dtype of the converted constant array, as dispatched on in
`_get_global_constant_initializer_op`. -/
inductive Dtype : Type
  | int32
  | int64
  | strD
  | boolD
  | float64
  | otherD
deriving DecidableEq, Repr

/-- The `GivenTensor*Fill` operator chosen for a constant array's dtype
(the `if/elif` chain of `_get_global_constant_initializer_op`). -/
def opNameFor : Dtype → String
  | .int32 => "GivenTensorIntFill"
  | .int64 => "GivenTensorInt64Fill"
  | .strD => "GivenTensorStringFill"
  | .boolD => "GivenTensorBoolFill"
  | _ => "GivenTensorFill"

/-- The result of `np.array(array, dtype=...)`: dtype, shape and the
flattened value list (`array.flatten().tolist()`); `1.0` and `0.0` are
exact, so rationals model the values faithfully here. -/
structure PyArr : Type where
  dtype : Dtype
  shape : List Int
  values : List Rat
deriving DecidableEq, Repr

/-- The `(array, dtype) xor initializer` argument pair of
`_get_global_constant_initializer_op`: either a converted array, or a
user-supplied initializer function from blob name to operator. -/
inductive GCInit : Type
  | arr (a : PyArr)
  | fn (f : String → OperatorDef)

/-- Python `_get_global_constant_initializer_op`: build the initializer operator
for a blob, from an array (dispatching the fill operator on its dtype) or
by calling the supplied initializer function. `dbg` stands for the
call-site-dependent `debug_info` that `core.CreateOperator` records. -/
def get_global_constant_initializer_op (blob : String) (g : GCInit) (dbg : String) :
    OperatorDef :=
  match g with
  | .arr a =>
    { op_type := opNameFor a.dtype, output := blob,
      attrs := [("shape", .intsV a.shape), ("values", .ratsV a.values)],
      debug_info := dbg }
  | .fn f => f blob

/-- A regularizer object: its `apply_after_optimizer` flag and an
abstract identity used to record invocations. -/
structure Reg : Type where
  apply_after_optimizer : Bool
  rid : Nat
deriving DecidableEq, Repr

/-- Which Python class a layer parameter object belongs to, as tested by
the `isinstance` chain in `add_layer`. -/
inductive PKind : Type
  | layerParameter
  | parameterInfo
  | otherKind
deriving DecidableEq, Repr

/-- A layer parameter (`layers.LayerParameter` / `ParameterInfo`): blob
name, optional initializer operator, optional optimizer and regularizer,
and its class for the `isinstance` dispatch. -/
structure LParam : Type where
  parameter : String
  init_op : Option OperatorDef
  optimizer : Option Nat
  regularizer : Option Reg
  kind : PKind
deriving DecidableEq, Repr

/-- A layer, as far as `add_layer` observes it: its parameters and the
output schema (abstract id) returned at the end. -/
structure Layer : Type where
  params : List LParam
  output_schema : Nat
deriving DecidableEq, Repr

/-- Modelled from the spec: the schema/record system
(`caffe2.python.schema`) is an external collaborator, described only as
structured tensor-field descriptions supporting algebraic composition. A
schema value that can be registered as a loss is a `schema.Scalar` (with
its blob) or a nested `schema.Struct` (abstract field list). -/
inductive LossVal : Type
  | scalarV (blob : Option String)
  | structV (fields : List (String × Nat))
deriving DecidableEq, Repr

/-- The Python argument passed to `add_loss`: `None`, a Scalar/Struct
schema value, or an object of any other type. -/
inductive LossArg : Type
  | noneArg
  | val (v : LossVal)
  | otherArg
deriving DecidableEq, Repr

/-- Modelled from the spec: `core.Net` belongs to the external
graph-construction API; the helper only appends operators to
`net._net.op`, so a net is a name and an operator list. -/
structure Net : Type where
  net_name : String
  ops : List OperatorDef
deriving DecidableEq, Repr

/-- The `param_name` argument of `create_param`: a `core.BlobReference`,
a string (to be resolved against the parameter-sharing scope), or a value
of any other type (which the code rejects). -/
inductive PName : Type
  | blobRef (s : String)
  | strName (s : String)
  | badType
deriving DecidableEq, Repr

/-- A key of a would-be breakdown map: a string, or a non-string key
(represented by an integer), as tested by the setter's second assert. -/
inductive BDKey : Type
  | strK (s : String)
  | intK (n : Int)
deriving DecidableEq, Repr

/-- The Python argument of the `breakdown_map` setter: a dict or any
non-dict object. -/
inductive BDArg : Type
  | notDict
  | dict (entries : List (BDKey × Int))
deriving DecidableEq, Repr

/-- The mutable state of a `LayerModelHelper` instance: its registries and
write-once slots. `init_params` models `_initialize_params`; the
`used_blobs` list models the blob names already issued by `self.net`
(for `NextBlob`). -/
structure ModelState : Type where
  layer_names : List String
  layers : List Layer
  param_to_shape : List (String × Option (List Int))
  param_to_optim : List (String × Option Nat)
  param_to_reg : List (String × Option Reg)
  params : List String
  default_optimizer : Option Nat
  loss : Option (List (String × LossVal))
  output_schema : Option Nat
  metrics_schema : List (String × Nat)
  global_constants : List (String × String)
  global_constant_initializers : List (String × OperatorDef)
  breakdown_map : Option (List (BDKey × Int))
  used_blobs : List String
  param_init_net : Net
  init_params : Bool
deriving DecidableEq, Repr

/-- Modelled from the spec: `core.Net.NextBlob` of the external graph API
returns a blob name that is not yet used in the net, derived from the
requested name. -/
def nextBlobName (used : List String) (name : String) : String :=
  nextFreshName used name "_"

/-- Python `a or b` for optimizer objects: the left operand when it is
not `None` (optimizer objects are truthy), otherwise the right one. -/
def pyOr (a b : Option Nat) : Option Nat :=
  match a with
  | some x => some x
  | none => b

/-- Python `add_global_constant`: assert the name is unregistered, allocate a
blob name, register it, build the initializer operator, assert the blob
has no initializer yet, and record it. The paired state is the state at
the moment an assertion escapes (the name-registration write precedes the
second assert, exactly as in the Python). -/
def add_global_constant (st : ModelState) (name : String) (g : GCInit) (dbg : String) :
    Except String String × ModelState :=
  if name ∈ akeys st.global_constants then
    (.error "already added in global_constants", st)
  else
    let blob := nextBlobName st.used_blobs name
    let st1 := { st with
      used_blobs := st.used_blobs ++ [blob],
      global_constants := aset st.global_constants name blob }
    let op := get_global_constant_initializer_op blob g dbg
    if blob ∈ akeys st1.global_constant_initializers then
      (.error "there is already a initializer op associated with blob", st1)
    else
      (.ok blob, { st1 with
        global_constant_initializers := aset st1.global_constant_initializers blob op })

/-- Python `maybe_add_global_constant`: for a registered name, rebuild the
initializer operator, assert it equals the stored one up to `debug_info`,
and return the originally assigned blob name without touching any state;
otherwise defer to `add_global_constant`. -/
def maybe_add_global_constant (st : ModelState) (name : String) (g : GCInit)
    (dbg : String) : Except String String × ModelState :=
  match alookup st.global_constants name with
  | some blob =>
    let op := get_global_constant_initializer_op blob g dbg
    match alookup st.global_constant_initializers blob with
    | some stored =>
      if op_equal op stored then (.ok blob, st)
      else (.error "conflict initializers for global constant", st)
    | none => (.error "KeyError: no initializer recorded for blob", st)
  | none => add_global_constant st name g dbg

/-- Python `create_init_net`: a fresh net holding exactly the recorded global
constant initializer operators, in registration order
(`_add_global_constants` extends `init_net._net.op` with each value of
`global_constant_initializers`). -/
def create_init_net (st : ModelState) (name : String) : Net :=
  { net_name := name, ops := st.global_constant_initializers.map (·.2) }

/-- The model state of a freshly constructed helper object before
`_init_global_constants` runs: empty registries, unset slots. -/
def emptyModelState : ModelState :=
  { layer_names := [], layers := [], param_to_shape := [], param_to_optim := [],
    param_to_reg := [], params := [], default_optimizer := none, loss := none,
    output_schema := none, metrics_schema := [], global_constants := [],
    global_constant_initializers := [], breakdown_map := none, used_blobs := [],
    param_init_net := { net_name := "", ops := [] }, init_params := true }

/-- Python `_init_global_constants`: reset both constant registries and register
`ONE = 1.0`, `ZERO = 0.0` and `ZERO_RANGE = [0, 0]` (dtype int32).
`np.array(1.0)` is a float64 scalar (shape `()`), `np.array([0, 0],
dtype='int32')` an int32 vector of shape `(2,)`. -/
def init_global_constants (st : ModelState) : ModelState :=
  let st0 := { st with global_constants := [], global_constant_initializers := [] }
  let st1 := (add_global_constant st0 "ONE"
    (.arr { dtype := .float64, shape := [], values := [1] }) "").2
  let st2 := (add_global_constant st1 "ZERO"
    (.arr { dtype := .float64, shape := [], values := [0] }) "").2
  (add_global_constant st2 "ZERO_RANGE"
    (.arr { dtype := .int32, shape := [2], values := [0, 0] }) "").2

/-- The state after `LayerModelHelper.__init__` (restricted to the fields
modelled here): `_init_global_constants()` followed by
`self.param_init_net = self.create_init_net('param_init_net')`. -/
def initModelState : ModelState :=
  let st := init_global_constants emptyModelState
  { st with param_init_net := create_init_net st "param_init_net" }

/-- Python `_validate_param_shape`: `ValueError` when the name is recorded with
a different reference shape, no effect otherwise. -/
def validate_param_shape (st : ModelState) (param_name : String)
    (shape : Option (List Int)) : Except String Unit :=
  match alookup st.param_to_shape param_name with
  | none => .ok ()
  | some ref_shape =>
    if shape ≠ ref_shape then .error "Got inconsistent shapes between shared parameters"
    else .ok ()

/-- The initializer keyword arguments before the shape key is added: an
empty dict for a length-1 initializer tuple, the (deep-copied) second
component for a length-2 one. -/
def init_op_args (init : String × Option (List (String × AttrVal))) :
    List (String × AttrVal) :=
  match init.2 with
  | none => []
  | some a => a

/-- The body of `create_param` after the parameter name is resolved:
assemble the initializer operator arguments (asserting they do not
already carry a `shape` key when a shape is given), build the
`LayerParameter`, validate the shape against `_param_to_shape`, and
record the shape. -/
def create_param_named (st : ModelState) (name : String)
    (shape : Option (List Int)) (init : String × Option (List (String × AttrVal)))
    (dbg : String) (opt : Option Nat) (reg : Option Reg) :
    Except String LParam × ModelState :=
  let argsE : Except String (List (String × AttrVal)) :=
    match shape with
    | none => .ok (init_op_args init)
    | some sh =>
      if "shape" ∈ akeys (init_op_args init) then
        .error "assert failed: shape key already present"
      else .ok (init_op_args init ++ [("shape", .intsV sh)])
  match argsE with
  | .error e => (.error e, st)
  | .ok args =>
    let init_op : Option OperatorDef :=
      if st.init_params then
        some { op_type := init.1, output := name, attrs := args, debug_info := dbg }
      else none
    let param : LParam :=
      { parameter := name, init_op := init_op, optimizer := opt,
        regularizer := reg, kind := .layerParameter }
    match validate_param_shape st name shape with
    | .error e => (.error e, st)
    | .ok _ => (.ok param, { st with param_to_shape := aset st.param_to_shape name shape })

/-- Python `create_param`: resolve the parameter name (a `BlobReference` is used
verbatim, a string goes through the parameter-sharing context `resolve`,
anything else is rejected), then run `create_param_named` on it. -/
def create_param (resolve : String → String) (st : ModelState) (pname : PName)
    (shape : Option (List Int)) (init : String × Option (List (String × AttrVal)))
    (dbg : String) (opt : Option Nat) (reg : Option Reg) :
    Except String LParam × ModelState :=
  match pname with
  | .badType => (.error "Unsupported type for param_name", st)
  | .blobRef s => create_param_named st s shape init dbg opt reg
  | .strName s => create_param_named st (resolve s) shape init dbg opt reg

/-- Python `next_layer_name`: scope the prefix (`core.ScopedName` prepends the
current name scope `ns`), search `base`, `base + '_auto_' + str(0)`, ...
for a name outside `_layer_names`, record it and return it. -/
def next_layer_name (ns : String) (st : ModelState) (pfx : String) :
    String × ModelState :=
  let base := ns ++ pfx
  let name := nextFreshName st.layer_names base "_auto_"
  (name, { st with layer_names := st.layer_names ++ [name] })

/-- The per-parameter loop body of `add_layer`: record the optimizer
(`param.optimizer or self.default_optimizer`), append the blob to
`self.params`, and record the regularizer for `LayerParameter` objects;
`ParameterInfo` objects are only logged, anything else raises
`ValueError` (with the writes made so far kept, as in Python). -/
def add_layer_params (st : ModelState) : List LParam → Except String Unit × ModelState
  | [] => (.ok (), st)
  | p :: rest =>
    let st1 := { st with
      param_to_optim := aset st.param_to_optim p.parameter
        (pyOr p.optimizer st.default_optimizer),
      params := st.params ++ [p.parameter] }
    match p.kind with
    | .layerParameter =>
      add_layer_params
        { st1 with param_to_reg := aset st1.param_to_reg p.parameter p.regularizer } rest
    | .parameterInfo => add_layer_params st1 rest
    | .otherKind =>
      (.error "unknown object type besides ParameterInfo and LayerParameter", st1)

/-- Python `add_layer`: append the layer, process its parameters, and return the
layer's output schema. (`layer.add_operators(self.net, self.param_init_net)`
acts on the external nets and is outside this model.) -/
def add_layer (st : ModelState) (layer : Layer) : Except String Nat × ModelState :=
  let st0 := { st with layers := st.layers ++ [layer] }
  match add_layer_params st0 layer.params with
  | (.ok _, st1) => (.ok layer.output_schema, st1)
  | (.error e, st1) => (.error e, st1)

/-- Python `add_metric_field`: assert the field name is new, then extend the
metrics schema with the single field `(name, value)`. Modelled from the
spec: `schema.Struct + schema.Struct` of the external schema system
composes the two field lists. -/
def add_metric_field (st : ModelState) (name : String) (value : Nat) :
    Except String Unit × ModelState :=
  if name ∈ akeys st.metrics_schema then
    (.error "Try to add metric field twice", st)
  else
    (.ok (), { st with metrics_schema := st.metrics_schema ++ [(name, value)] })

/-- Python `add_loss`: reject `None` and non-Scalar/Struct values; the first
loss becomes the single-field struct `(name, loss)`; later losses are
appended under the first collision-free name among `name`,
`name + '_auto_' + str(0)`, ... Modelled from the spec: membership
`prefix in self._loss` and `Struct + Struct` of the external schema
system are field-name membership and field-list concatenation. -/
def add_loss (st : ModelState) (loss : LossArg) (name : String) :
    Except String Unit × ModelState :=
  match loss with
  | .noneArg => (.error "Added loss should not be None", st)
  | .otherArg => (.error "Added loss should be a scalar or a struct", st)
  | .val v =>
    match st.loss with
    | none => (.ok (), { st with loss := some [(name, v)] })
    | some fields =>
      let pfx := nextFreshName (akeys fields) name "_auto_"
      (.ok (), { st with loss := some (fields ++ [(pfx, v)]) })

/-- The `loss` property getter: asserts the loss has been set. -/
def get_loss (st : ModelState) : Except String (List (String × LossVal)) :=
  match st.loss with
  | none => .error "assert self loss is not None"
  | some v => .ok v

/-- The `loss` property setter: asserts the loss is still unset, then
stores the given loss struct. -/
def set_loss (st : ModelState) (v : List (String × LossVal)) :
    Except String Unit × ModelState :=
  match st.loss with
  | some _ => (.error "assert self loss is None", st)
  | none => (.ok (), { st with loss := some v })

/-- Python `has_loss`: whether the loss slot is set. -/
def has_loss (st : ModelState) : Bool :=
  st.loss.isSome

/-- The `output_schema` property getter: asserts the schema has been set. -/
def get_output_schema (st : ModelState) : Except String Nat :=
  match st.output_schema with
  | none => .error "assert output schema is not None"
  | some v => .ok v

/-- The `output_schema` property setter: asserts the schema is still
unset, then stores the given schema. -/
def set_output_schema (st : ModelState) (v : Nat) : Except String Unit × ModelState :=
  match st.output_schema with
  | some _ => (.error "assert output schema is None", st)
  | none => (.ok (), { st with output_schema := some v })

/-- Python `clear_output_schema`: reset the output schema to the unset state. -/
def clear_output_schema (st : ModelState) : ModelState :=
  { st with output_schema := none }

/-- The `default_optimizer` setter. -/
def set_default_optimizer (st : ModelState) (o : Option Nat) : ModelState :=
  { st with default_optimizer := o }

/-- Python `set_initialize_params` (field modelled as `init_params`). -/
def set_init_params (st : ModelState) (b : Bool) : ModelState :=
  { st with init_params := b }

/-- One recorded regularizer invocation of
`apply_regularizers_on_loss`: the parameter and the regularizer id. -/
def run_reg_on_loss (runReg : Nat → String → String) :
    List (String × Option Reg) → ModelState → List (String × Nat) →
    List (String × Nat) × ModelState
  | [], st, acc => (acc, st)
  | (_, none) :: rest, st, acc => run_reg_on_loss runReg rest st acc
  | (p, some r) :: rest, st, acc =>
    if r.apply_after_optimizer then run_reg_on_loss runReg rest st acc
    else
      let blob := runReg r.rid p
      let st1 := (add_loss st (.val (.scalarV (some blob))) blob).2
      run_reg_on_loss runReg rest st1 (acc ++ [(p, r.rid)])

/-- Python `apply_regularizers_on_loss`: invoke every tracked regularizer whose
`apply_after_optimizer` flag is false (`runReg` stands for the external
`regularizer(train_net, train_init_net, param)` call and yields the added
loss blob), adding each returned blob as a loss entry named after it;
`None` regularizers and after-optimizer ones are skipped. -/
def apply_regularizers_on_loss (runReg : Nat → String → String) (st : ModelState) :
    List (String × Nat) × ModelState :=
  run_reg_on_loss runReg st.param_to_reg st []

/-- The invocations of `apply_regularizers_after_optimizer`: parameter,
regularizer id, and the gradient looked up in `grad_map`. -/
def run_reg_after (grad_map : List (String × String)) :
    List (String × Option Reg) → List (String × Nat × Option String)
  | [] => []
  | (_, none) :: rest => run_reg_after grad_map rest
  | (p, some r) :: rest =>
    if r.apply_after_optimizer then
      (p, r.rid, alookup grad_map p) :: run_reg_after grad_map rest
    else run_reg_after grad_map rest

/-- Python `apply_regularizers_after_optimizer`: invoke every tracked
regularizer whose `apply_after_optimizer` flag is true, passing the
gradient from `grad_map` (`None` when absent); the model state itself is
not modified. -/
def apply_regularizers_after_optimizer (st : ModelState)
    (grad_map : List (String × String)) :
    List (String × Nat × Option String) × ModelState :=
  (run_reg_after grad_map st.param_to_reg, st)

/-- One optimizer invocation recorded by `apply_optimizers`: parameter,
optimizer, and the gradient found in `grad_map` (`None` when absent). -/
structure OptCall : Type where
  param : String
  optim : Nat
  grad : Option String
deriving DecidableEq, Repr

/-- The loop of `apply_optimizers` over `param_to_optim`: assert each
tracked optimizer is not `None`, and invoke it with the gradient looked
up in `grad_map`. Device selection (`get_param_device`, `DeviceScope`)
belongs to the external framework and is not modelled. -/
def run_optimizers (grad_map : List (String × String)) :
    List (String × Option Nat) → List OptCall → Except String (List OptCall)
  | [], acc => .ok acc
  | (_, none) :: _, _ => .error "default optimizer must have been set in add_layer"
  | (p, some o) :: rest, acc =>
    run_optimizers grad_map rest
      (acc ++ [{ param := p, optim := o, grad := alookup grad_map p }])

/-- Python `apply_optimizers`: run the optimizer of every tracked parameter. -/
def apply_optimizers (st : ModelState) (grad_map : List (String × String)) :
    Except String (List OptCall) × ModelState :=
  (run_optimizers grad_map st.param_to_optim [], st)

/-- Insert into a sorted list (ascending), for `sorted(...)`. -/
def insertSorted (x : Int) : List Int → List Int
  | [] => [x]
  | y :: t => if x ≤ y then x :: y :: t else y :: insertSorted x t

/-- Python `sorted(list(...))` on integers, as an insertion sort. -/
def pySorted : List Int → List Int
  | [] => []
  | x :: t => insertSorted x (pySorted t)

/-- A Python value on either side of the `==` in the breakdown-map
setter: a list of ints or a `range` object. -/
inductive PyV : Type
  | listV (l : List Int)
  | rangeV (n : Nat)
deriving DecidableEq, Repr

/-- Python 3 `==` on these values: lists compare elementwise, the
`range(n)` objects occurring here compare as equal sequences (equal iff
the same `n`), and a list never compares equal to a range object — neither
type implements cross-type equality, so `==` falls back to identity,
which is `False` for distinct objects. -/
def pyEq : PyV → PyV → Bool
  | .listV a, .listV b => a == b
  | .rangeV a, .rangeV b => a == b
  | _, _ => false

/-- True iff every key of the dict is a string
(`all(isinstance(k, six.string_types) for k in breakdown_map)`). -/
def allStrKeys (entries : List (BDKey × Int)) : Bool :=
  entries.all fun p =>
    match p.1 with
    | .strK _ => true
    | .intK _ => false

/-- The `breakdown_map` setter: assert the argument is a dict with string
keys whose sorted value list compares `==` to `range(len(breakdown_map))`
(a list-vs-range comparison, per `pyEq`), then store it. -/
def set_breakdown_map (st : ModelState) (arg : BDArg) :
    Except String Unit × ModelState :=
  match arg with
  | .notDict => (.error "assert isinstance(breakdown_map, dict)", st)
  | .dict entries =>
    if allStrKeys entries then
      if pyEq (.listV (pySorted (entries.map (·.2)))) (.rangeV entries.length) then
        (.ok (), { st with breakdown_map := some entries })
      else (.error "assert sorted(values) == range(len) failed", st)
    else (.error "assert all keys are strings failed", st)

/-- One public mutating call of the modelled `LayerModelHelper` API, used
to quantify over arbitrary sequences of operations on one helper object. -/
inductive MOp : Type
  | addGCOp (name : String) (g : GCInit) (dbg : String)
  | maybeAddGCOp (name : String) (g : GCInit) (dbg : String)
  | addMetricOp (name : String) (value : Nat)
  | addLossOp (l : LossArg) (name : String)
  | setLossOp (v : List (String × LossVal))
  | setOutputOp (v : Nat)
  | clearOutputOp
  | nextLayerOp (ns : String) (pfx : String)
  | addLayerOp (l : Layer)
  | createParamOp (resolve : String → String) (pn : PName)
      (shape : Option (List Int)) (init : String × Option (List (String × AttrVal)))
      (dbg : String) (o : Option Nat) (r : Option Reg)
  | regOnLossOp (runReg : Nat → String → String)
  | regAfterOp (grad : List (String × String))
  | applyOptOp (grad : List (String × String))
  | setBreakdownOp (a : BDArg)
  | setDefaultOptimOp (o : Option Nat)
  | setInitParamsOp (b : Bool)

/-- The state reached after one modelled call (exceptions leave the state
the corresponding operation pairs with the error). -/
def stepM (st : ModelState) : MOp → ModelState
  | .addGCOp n g d => (add_global_constant st n g d).2
  | .maybeAddGCOp n g d => (maybe_add_global_constant st n g d).2
  | .addMetricOp n v => (add_metric_field st n v).2
  | .addLossOp l n => (add_loss st l n).2
  | .setLossOp v => (set_loss st v).2
  | .setOutputOp v => (set_output_schema st v).2
  | .clearOutputOp => clear_output_schema st
  | .nextLayerOp ns pfx => (next_layer_name ns st pfx).2
  | .addLayerOp l => (add_layer st l).2
  | .createParamOp resolve pn shape init dbg o r =>
      (create_param resolve st pn shape init dbg o r).2
  | .regOnLossOp f => (apply_regularizers_on_loss f st).2
  | .regAfterOp g => (apply_regularizers_after_optimizer st g).2
  | .applyOptOp g => (apply_optimizers st g).2
  | .setBreakdownOp a => (set_breakdown_map st a).2
  | .setDefaultOptimOp o => set_default_optimizer st o
  | .setInitParamsOp b => set_init_params st b

/-- Run a sequence of modelled calls. -/
def runOps (st : ModelState) : List MOp → ModelState
  | [] => st
  | o :: rest => runOps (stepM st o) rest

theorem mem_akeys_aset_of_mem {α : Type} (l : List (String × α)) (k : String) (v : α)
    (k0 : String) (h : k0 ∈ akeys l) : k0 ∈ akeys (aset l k v) := by
  by_cases hm : k ∈ akeys l
  · rw [akeys_aset_mem l k v hm]; exact h
  · rw [akeys_aset_not_mem l k v hm]; exact List.mem_append_left _ h

theorem alookup_mem_values {α : Type} (l : List (String × α)) (k : String) (v : α)
    (h : alookup l k = some v) : v ∈ l.map (·.2) := by
  induction l with
  | nil => simp [alookup] at h
  | cons p t ih =>
    obtain ⟨k', v'⟩ := p
    by_cases hk : k' = k
    · rw [alookup, if_pos hk] at h
      simp at h
      simp [h]
    · rw [alookup, if_neg hk] at h
      simp [ih h]

/-- The fields of the loss struct, counted (0 when the loss is unset). -/
def lossSize (st : ModelState) : Nat :=
  match st.loss with
  | none => 0
  | some f => f.length

theorem add_loss_fields (st : ModelState) (l : LossArg) (n : String) :
    (add_loss st l n).2.metrics_schema = st.metrics_schema ∧
    (add_loss st l n).2.output_schema = st.output_schema ∧
    (add_loss st l n).2.global_constants = st.global_constants ∧
    (add_loss st l n).2.global_constant_initializers = st.global_constant_initializers ∧
    (st.loss.isSome → (add_loss st l n).2.loss.isSome) := by
  cases l with
  | noneArg => simp [add_loss]
  | otherArg => simp [add_loss]
  | val v => cases h : st.loss <;> simp [add_loss, h]

theorem add_loss_size (st : ModelState) (v : LossVal) (n : String) :
    lossSize (add_loss st (.val v) n).2 = lossSize st + 1 := by
  cases h : st.loss <;> simp [add_loss, h, lossSize]

theorem add_layer_params_fields (ps : List LParam) : ∀ st : ModelState,
    (add_layer_params st ps).2.metrics_schema = st.metrics_schema ∧
    (add_layer_params st ps).2.loss = st.loss ∧
    (add_layer_params st ps).2.output_schema = st.output_schema ∧
    (add_layer_params st ps).2.global_constants = st.global_constants ∧
    (add_layer_params st ps).2.global_constant_initializers = st.global_constant_initializers ∧
    (add_layer_params st ps).2.default_optimizer = st.default_optimizer := by
  induction ps with
  | nil => intro st; simp [add_layer_params]
  | cons p rest ih =>
    intro st
    cases hk : p.kind <;> simp only [add_layer_params, hk] <;>
      first
      | exact ih _
      | simp

theorem create_param_state (resolve : String → String) (st : ModelState) (pname : PName)
    (shape : Option (List Int)) (init : String × Option (List (String × AttrVal)))
    (dbg : String) (opt : Option Nat) (reg : Option Reg) :
    (create_param resolve st pname shape init dbg opt reg).2 = st ∨
    ∃ name, (create_param resolve st pname shape init dbg opt reg).2
      = { st with param_to_shape := aset st.param_to_shape name shape } := by
  have hnamed : ∀ name, (create_param_named st name shape init dbg opt reg).2 = st ∨
      (create_param_named st name shape init dbg opt reg).2
        = { st with param_to_shape := aset st.param_to_shape name shape } := by
    intro name
    simp only [create_param_named]
    split
    · left; rfl
    · split
      · left; rfl
      · right; rfl
  cases pname with
  | badType => left; rfl
  | blobRef s =>
    rcases hnamed s with h | h
    · left; exact h
    · right; exact ⟨s, h⟩
  | strName s =>
    rcases hnamed (resolve s) with h | h
    · left; exact h
    · right; exact ⟨resolve s, h⟩

theorem run_reg_on_loss_spec (runReg : Nat → String → String) :
    ∀ (entries : List (String × Option Reg)) (st : ModelState)
      (acc : List (String × Nat)),
    (run_reg_on_loss runReg entries st acc).1
      = acc ++ entries.filterMap (fun e =>
          match e.2 with
          | some r => if r.apply_after_optimizer then none else some (e.1, r.rid)
          | none => none) ∧
    (run_reg_on_loss runReg entries st acc).2.metrics_schema = st.metrics_schema ∧
    (run_reg_on_loss runReg entries st acc).2.output_schema = st.output_schema ∧
    (run_reg_on_loss runReg entries st acc).2.global_constants = st.global_constants ∧
    (run_reg_on_loss runReg entries st acc).2.global_constant_initializers
      = st.global_constant_initializers ∧
    (st.loss.isSome → (run_reg_on_loss runReg entries st acc).2.loss.isSome) ∧
    lossSize (run_reg_on_loss runReg entries st acc).2
      = lossSize st + (entries.filterMap (fun e =>
          match e.2 with
          | some r => if r.apply_after_optimizer then none else some (e.1, r.rid)
          | none => none)).length := by
  intro entries
  induction entries with
  | nil => intro st acc; simp [run_reg_on_loss]
  | cons e rest ih =>
    intro st acc
    obtain ⟨p, ro⟩ := e
    cases ro with
    | none => simpa [run_reg_on_loss] using ih st acc
    | some r =>
      by_cases haft : r.apply_after_optimizer
      · simpa [run_reg_on_loss, haft] using ih st acc
      · have hfalse : r.apply_after_optimizer = false := by simpa using haft
        have hmid := add_loss_fields st
          (.val (.scalarV (some (runReg r.rid p)))) (runReg r.rid p)
        have hsize := add_loss_size st
          (.scalarV (some (runReg r.rid p))) (runReg r.rid p)
        have ihm := ih (add_loss st (.val (.scalarV (some (runReg r.rid p))))
          (runReg r.rid p)).2 (acc ++ [(p, r.rid)])
        have hstep : run_reg_on_loss runReg ((p, some r) :: rest) st acc
            = run_reg_on_loss runReg rest
                (add_loss st (.val (.scalarV (some (runReg r.rid p)))) (runReg r.rid p)).2
                (acc ++ [(p, r.rid)]) := by
          simp [run_reg_on_loss, hfalse]
        rw [hstep]
        refine ⟨?_, ?_, ?_, ?_, ?_, ?_, ?_⟩
        · rw [ihm.1]; simp [hfalse]
        · rw [ihm.2.1, hmid.1]
        · rw [ihm.2.2.1, hmid.2.1]
        · rw [ihm.2.2.2.1, hmid.2.2.1]
        · rw [ihm.2.2.2.2.1, hmid.2.2.2.1]
        · intro hs
          exact ihm.2.2.2.2.2.1 (hmid.2.2.2.2 hs)
        · rw [ihm.2.2.2.2.2.2, hsize]
          simp [hfalse]
          omega

theorem run_reg_after_spec (grad_map : List (String × String)) :
    ∀ entries : List (String × Option Reg),
    run_reg_after grad_map entries
      = entries.filterMap (fun e =>
          match e.2 with
          | some r =>
            if r.apply_after_optimizer then some (e.1, r.rid, alookup grad_map e.1)
            else none
          | none => none) := by
  intro entries
  induction entries with
  | nil => simp [run_reg_after]
  | cons e rest ih =>
    obtain ⟨p, ro⟩ := e
    cases ro with
    | none => simpa [run_reg_after] using ih
    | some r =>
      by_cases haft : r.apply_after_optimizer <;>
        simp [run_reg_after, haft, ih]

theorem run_optimizers_ok (grad_map : List (String × String)) :
    ∀ (entries : List (String × Option Nat)) (acc : List OptCall),
    (∀ e ∈ entries, e.2.isSome) →
    run_optimizers grad_map entries acc
      = .ok (acc ++ entries.filterMap (fun e =>
          e.2.map (fun o =>
            { param := e.1, optim := o, grad := alookup grad_map e.1 }))) := by
  intro entries
  induction entries with
  | nil => intro acc _; simp [run_optimizers]
  | cons e rest ih =>
    intro acc hall
    obtain ⟨p, oo⟩ := e
    cases oo with
    | none => exact absurd (hall (p, none) (List.mem_cons_self _ _)) (by simp)
    | some o =>
      have := ih (acc ++ [{ param := p, optim := o, grad := alookup grad_map p }])
        (fun e he => hall e (List.mem_cons_of_mem _ he))
      simp only [run_optimizers, this]
      simp

theorem run_optimizers_err (grad_map : List (String × String)) :
    ∀ (entries : List (String × Option Nat)) (acc : List OptCall),
    (∃ e ∈ entries, e.2 = none) →
    ∃ msg, run_optimizers grad_map entries acc = .error msg := by
  intro entries
  induction entries with
  | nil => intro acc ⟨e, he, _⟩; simp at he
  | cons e rest ih =>
    intro acc ⟨f, hf, hfn⟩
    obtain ⟨p, oo⟩ := e
    cases oo with
    | none => exact ⟨_, rfl⟩
    | some o =>
      rcases List.mem_cons.mp hf with rfl | hf'
      · simp at hfn
      · exact ih _ ⟨f, hf', hfn⟩

theorem add_global_constant_fields (st : ModelState) (n : String) (g : GCInit)
    (d : String) :
    (add_global_constant st n g d).2.metrics_schema = st.metrics_schema ∧
    (add_global_constant st n g d).2.loss = st.loss ∧
    (add_global_constant st n g d).2.output_schema = st.output_schema ∧
    (add_global_constant st n g d).2.param_to_optim = st.param_to_optim := by
  by_cases h1 : n ∈ akeys st.global_constants
  · simp [add_global_constant, h1]
  · by_cases h2 : nextBlobName st.used_blobs n ∈ akeys st.global_constant_initializers <;>
      simp [add_global_constant, h1, h2]

theorem maybe_add_global_constant_fields (st : ModelState) (n : String) (g : GCInit)
    (d : String) :
    (maybe_add_global_constant st n g d).2.metrics_schema = st.metrics_schema ∧
    (maybe_add_global_constant st n g d).2.loss = st.loss ∧
    (maybe_add_global_constant st n g d).2.output_schema = st.output_schema ∧
    (maybe_add_global_constant st n g d).2.param_to_optim = st.param_to_optim := by
  cases hl : alookup st.global_constants n with
  | none =>
    simpa [maybe_add_global_constant, hl] using add_global_constant_fields st n g d
  | some blob =>
    cases hl2 : alookup st.global_constant_initializers blob with
    | none => simp [maybe_add_global_constant, hl, hl2]
    | some stored =>
      by_cases he : op_equal (get_global_constant_initializer_op blob g d) stored <;>
        simp [maybe_add_global_constant, hl, hl2, he]

theorem add_global_constant_preserves_gc (st : ModelState) (n : String) (g : GCInit)
    (d : String) (k b : String) (h : alookup st.global_constants k = some b) :
    alookup (add_global_constant st n g d).2.global_constants k = some b := by
  by_cases h1 : n ∈ akeys st.global_constants
  · simpa [add_global_constant, h1] using h
  · have hkn : n ≠ k := fun he => h1 (he ▸ mem_akeys_of_alookup _ _ _ h)
    by_cases h2 : nextBlobName st.used_blobs n ∈ akeys st.global_constant_initializers <;>
      simpa [add_global_constant, h1, h2, alookup_aset_other _ _ _ _ hkn] using h

theorem add_global_constant_preserves_gci (st : ModelState) (n : String) (g : GCInit)
    (d : String) (b : String) (op : OperatorDef)
    (h : alookup st.global_constant_initializers b = some op) :
    alookup (add_global_constant st n g d).2.global_constant_initializers b = some op := by
  by_cases h1 : n ∈ akeys st.global_constants
  · simpa [add_global_constant, h1] using h
  · by_cases h2 : nextBlobName st.used_blobs n ∈ akeys st.global_constant_initializers
    · simpa [add_global_constant, h1, h2] using h
    · have hbn : nextBlobName st.used_blobs n ≠ b :=
        fun he => h2 (he ▸ mem_akeys_of_alookup _ _ _ h)
      simpa [add_global_constant, h1, h2, alookup_aset_other _ _ _ _ hbn] using h

theorem maybe_add_global_constant_preserves_gc (st : ModelState) (n : String)
    (g : GCInit) (d : String) (k b : String)
    (h : alookup st.global_constants k = some b) :
    alookup (maybe_add_global_constant st n g d).2.global_constants k = some b := by
  cases hl : alookup st.global_constants n with
  | none =>
    simpa [maybe_add_global_constant, hl] using
      add_global_constant_preserves_gc st n g d k b h
  | some blob =>
    cases hl2 : alookup st.global_constant_initializers blob with
    | none => simpa [maybe_add_global_constant, hl, hl2] using h
    | some stored =>
      by_cases he : op_equal (get_global_constant_initializer_op blob g d) stored <;>
        simpa [maybe_add_global_constant, hl, hl2, he] using h

theorem maybe_add_global_constant_preserves_gci (st : ModelState) (n : String)
    (g : GCInit) (d : String) (b : String) (op : OperatorDef)
    (h : alookup st.global_constant_initializers b = some op) :
    alookup (maybe_add_global_constant st n g d).2.global_constant_initializers b
      = some op := by
  cases hl : alookup st.global_constants n with
  | none =>
    simpa [maybe_add_global_constant, hl] using
      add_global_constant_preserves_gci st n g d b op h
  | some blob =>
    cases hl2 : alookup st.global_constant_initializers blob with
    | none => simpa [maybe_add_global_constant, hl, hl2] using h
    | some stored =>
      by_cases he : op_equal (get_global_constant_initializer_op blob g d) stored <;>
        simpa [maybe_add_global_constant, hl, hl2, he] using h

theorem add_layer_snd (st : ModelState) (l : Layer) :
    (add_layer st l).2
      = (add_layer_params { st with layers := st.layers ++ [l] } l.params).2 := by
  unfold add_layer
  dsimp only
  cases h : add_layer_params { st with layers := st.layers ++ [l] } l.params with
  | mk r s2 => cases r <;> rfl

theorem set_breakdown_map_fields (st : ModelState) (a : BDArg) :
    (set_breakdown_map st a).2.metrics_schema = st.metrics_schema ∧
    (set_breakdown_map st a).2.loss = st.loss ∧
    (set_breakdown_map st a).2.global_constants = st.global_constants ∧
    (set_breakdown_map st a).2.global_constant_initializers
      = st.global_constant_initializers := by
  cases a with
  | notDict => simp [set_breakdown_map]
  | dict es =>
    simp only [set_breakdown_map]
    split
    · split <;> simp
    · simp

theorem stepM_metrics (st : ModelState) (o : MOp)
    (h : ∀ n v, o ≠ MOp.addMetricOp n v) :
    (stepM st o).metrics_schema = st.metrics_schema := by
  cases o with
  | addGCOp n g d => exact (add_global_constant_fields st n g d).1
  | maybeAddGCOp n g d => exact (maybe_add_global_constant_fields st n g d).1
  | addMetricOp n v => exact absurd rfl (h n v)
  | addLossOp l n => exact (add_loss_fields st l n).1
  | setLossOp v => cases hl : st.loss <;> simp [stepM, set_loss, hl]
  | setOutputOp v => cases hl : st.output_schema <;> simp [stepM, set_output_schema, hl]
  | clearOutputOp => rfl
  | nextLayerOp ns pfx => rfl
  | addLayerOp l =>
    show (add_layer st l).2.metrics_schema = st.metrics_schema
    rw [add_layer_snd]
    exact (add_layer_params_fields l.params _).1
  | createParamOp resolve pn shape init dbg o r =>
    rcases create_param_state resolve st pn shape init dbg o r with hcp | ⟨name, hcp⟩ <;>
      simp [stepM, hcp]
  | regOnLossOp f => exact (run_reg_on_loss_spec f st.param_to_reg st []).2.1
  | regAfterOp g => rfl
  | applyOptOp g => rfl
  | setBreakdownOp a => exact (set_breakdown_map_fields st a).1
  | setDefaultOptimOp o => rfl
  | setInitParamsOp b => rfl

theorem stepM_loss_isSome (st : ModelState) (o : MOp) (h : st.loss.isSome) :
    (stepM st o).loss.isSome := by
  cases o with
  | addGCOp n g d => rw [show (stepM st (.addGCOp n g d)).loss = st.loss from
      (add_global_constant_fields st n g d).2.1]; exact h
  | maybeAddGCOp n g d => rw [show (stepM st (.maybeAddGCOp n g d)).loss = st.loss from
      (maybe_add_global_constant_fields st n g d).2.1]; exact h
  | addMetricOp n v =>
    show (add_metric_field st n v).2.loss.isSome
    by_cases hm : n ∈ akeys st.metrics_schema <;> simpa [add_metric_field, hm] using h
  | addLossOp l n => exact (add_loss_fields st l n).2.2.2.2 h
  | setLossOp v =>
    cases hl : st.loss with
    | none => rw [hl] at h; simp at h
    | some f => simp [stepM, set_loss, hl]
  | setOutputOp v => cases hl : st.output_schema <;> simpa [stepM, set_output_schema, hl] using h
  | clearOutputOp => exact h
  | nextLayerOp ns pfx => exact h
  | addLayerOp l =>
    show (add_layer st l).2.loss.isSome
    rw [add_layer_snd]
    rw [(add_layer_params_fields l.params _).2.1]
    exact h
  | createParamOp resolve pn shape init dbg o r =>
    rcases create_param_state resolve st pn shape init dbg o r with hcp | ⟨name, hcp⟩ <;>
      simpa [stepM, hcp] using h
  | regOnLossOp f => exact (run_reg_on_loss_spec f st.param_to_reg st []).2.2.2.2.2.1 h
  | regAfterOp g => exact h
  | applyOptOp g => exact h
  | setBreakdownOp a =>
    show (set_breakdown_map st a).2.loss.isSome
    rw [(set_breakdown_map_fields st a).2.1]
    exact h
  | setDefaultOptimOp o => exact h
  | setInitParamsOp b => exact h

theorem stepM_gc_preserved (st : ModelState) (o : MOp) (k b : String)
    (h : alookup st.global_constants k = some b) :
    alookup (stepM st o).global_constants k = some b := by
  cases o with
  | addGCOp n g d => exact add_global_constant_preserves_gc st n g d k b h
  | maybeAddGCOp n g d => exact maybe_add_global_constant_preserves_gc st n g d k b h
  | addMetricOp n v =>
    show alookup (add_metric_field st n v).2.global_constants k = some b
    by_cases hm : n ∈ akeys st.metrics_schema <;> simpa [add_metric_field, hm] using h
  | addLossOp l n => rw [show (stepM st (.addLossOp l n)).global_constants
      = st.global_constants from (add_loss_fields st l n).2.2.1]; exact h
  | setLossOp v => cases hl : st.loss <;> simpa [stepM, set_loss, hl] using h
  | setOutputOp v => cases hl : st.output_schema <;> simpa [stepM, set_output_schema, hl] using h
  | clearOutputOp => exact h
  | nextLayerOp ns pfx => exact h
  | addLayerOp l =>
    show alookup (add_layer st l).2.global_constants k = some b
    rw [add_layer_snd]
    rw [(add_layer_params_fields l.params _).2.2.2.1]
    exact h
  | createParamOp resolve pn shape init dbg o r =>
    rcases create_param_state resolve st pn shape init dbg o r with hcp | ⟨name, hcp⟩ <;>
      simpa [stepM, hcp] using h
  | regOnLossOp f =>
    show alookup (apply_regularizers_on_loss f st).2.global_constants k = some b
    rw [show (apply_regularizers_on_loss f st).2.global_constants = st.global_constants
      from (run_reg_on_loss_spec f st.param_to_reg st []).2.2.2.1]
    exact h
  | regAfterOp g => exact h
  | applyOptOp g => exact h
  | setBreakdownOp a =>
    show alookup (set_breakdown_map st a).2.global_constants k = some b
    rw [(set_breakdown_map_fields st a).2.2.1]
    exact h
  | setDefaultOptimOp o => exact h
  | setInitParamsOp b' => exact h

theorem stepM_gci_preserved (st : ModelState) (o : MOp) (b : String) (op : OperatorDef)
    (h : alookup st.global_constant_initializers b = some op) :
    alookup (stepM st o).global_constant_initializers b = some op := by
  cases o with
  | addGCOp n g d => exact add_global_constant_preserves_gci st n g d b op h
  | maybeAddGCOp n g d => exact maybe_add_global_constant_preserves_gci st n g d b op h
  | addMetricOp n v =>
    show alookup (add_metric_field st n v).2.global_constant_initializers b = some op
    by_cases hm : n ∈ akeys st.metrics_schema <;> simpa [add_metric_field, hm] using h
  | addLossOp l n => rw [show (stepM st (.addLossOp l n)).global_constant_initializers
      = st.global_constant_initializers from (add_loss_fields st l n).2.2.2.1]; exact h
  | setLossOp v => cases hl : st.loss <;> simpa [stepM, set_loss, hl] using h
  | setOutputOp v => cases hl : st.output_schema <;> simpa [stepM, set_output_schema, hl] using h
  | clearOutputOp => exact h
  | nextLayerOp ns pfx => exact h
  | addLayerOp l =>
    show alookup (add_layer st l).2.global_constant_initializers b = some op
    rw [add_layer_snd]
    rw [(add_layer_params_fields l.params _).2.2.2.2.1]
    exact h
  | createParamOp resolve pn shape init dbg o r =>
    rcases create_param_state resolve st pn shape init dbg o r with hcp | ⟨name, hcp⟩ <;>
      simpa [stepM, hcp] using h
  | regOnLossOp f =>
    show alookup (apply_regularizers_on_loss f st).2.global_constant_initializers b = some op
    rw [show (apply_regularizers_on_loss f st).2.global_constant_initializers
      = st.global_constant_initializers
      from (run_reg_on_loss_spec f st.param_to_reg st []).2.2.2.2.1]
    exact h
  | regAfterOp g => exact h
  | applyOptOp g => exact h
  | setBreakdownOp a =>
    show alookup (set_breakdown_map st a).2.global_constant_initializers b = some op
    rw [(set_breakdown_map_fields st a).2.2.2]
    exact h
  | setDefaultOptimOp o => exact h
  | setInitParamsOp b' => exact h

theorem runOps_metrics (ops : List MOp) : ∀ st : ModelState,
    (∀ o ∈ ops, ∀ n v, o ≠ MOp.addMetricOp n v) →
    (runOps st ops).metrics_schema = st.metrics_schema := by
  induction ops with
  | nil => intro st _; rfl
  | cons o rest ih =>
    intro st hall
    rw [runOps, ih (stepM st o) (fun o' ho' => hall o' (List.mem_cons_of_mem _ ho')),
      stepM_metrics st o (hall o (List.mem_cons_self _ _))]

theorem runOps_loss_isSome (ops : List MOp) : ∀ st : ModelState,
    st.loss.isSome → (runOps st ops).loss.isSome := by
  induction ops with
  | nil => intro st h; exact h
  | cons o rest ih =>
    intro st h
    exact ih (stepM st o) (stepM_loss_isSome st o h)

theorem runOps_gc_preserved (ops : List MOp) : ∀ (st : ModelState) (k b : String),
    alookup st.global_constants k = some b →
    alookup (runOps st ops).global_constants k = some b := by
  induction ops with
  | nil => intro st k b h; exact h
  | cons o rest ih =>
    intro st k b h
    exact ih (stepM st o) k b (stepM_gc_preserved st o k b h)

theorem runOps_gci_preserved (ops : List MOp) :
    ∀ (st : ModelState) (b : String) (op : OperatorDef),
    alookup st.global_constant_initializers b = some op →
    alookup (runOps st ops).global_constant_initializers b = some op := by
  induction ops with
  | nil => intro st b op h; exact h
  | cons o rest ih =>
    intro st b op h
    exact ih (stepM st o) b op (stepM_gci_preserved st o b op h)

theorem add_layer_params_cons_eq (st : ModelState) (p : LParam) (rest : List LParam)
    (h : p.kind ≠ PKind.otherKind) :
    ∃ stm, add_layer_params st (p :: rest) = add_layer_params stm rest ∧
      stm.param_to_optim
        = aset st.param_to_optim p.parameter (pyOr p.optimizer st.default_optimizer) ∧
      stm.default_optimizer = st.default_optimizer := by
  cases hk : p.kind with
  | otherKind => exact absurd hk h
  | layerParameter =>
    refine ⟨{ st with
      param_to_optim := aset st.param_to_optim p.parameter
        (pyOr p.optimizer st.default_optimizer),
      params := st.params ++ [p.parameter],
      param_to_reg := aset st.param_to_reg p.parameter p.regularizer }, ?_, rfl, rfl⟩
    simp only [add_layer_params, hk]
  | parameterInfo =>
    refine ⟨{ st with
      param_to_optim := aset st.param_to_optim p.parameter
        (pyOr p.optimizer st.default_optimizer),
      params := st.params ++ [p.parameter] }, ?_, rfl, rfl⟩
    simp only [add_layer_params, hk]

theorem add_layer_params_lookup (ps : List LParam) : ∀ st : ModelState,
    (∀ p ∈ ps, p.kind ≠ PKind.otherKind) →
    ∃ st', add_layer_params st ps = (.ok (), st') ∧
      st'.default_optimizer = st.default_optimizer ∧
      (∀ q, q ∉ ps.map (·.parameter) →
        alookup st'.param_to_optim q = alookup st.param_to_optim q) ∧
      ((ps.map (·.parameter)).Nodup →
        ∀ p ∈ ps, alookup st'.param_to_optim p.parameter
          = some (pyOr p.optimizer st.default_optimizer)) := by
  induction ps with
  | nil =>
    intro st _
    exact ⟨st, rfl, rfl, fun q _ => rfl, fun _ p hp => absurd hp (List.not_mem_nil p)⟩
  | cons p rest ih =>
    intro st hk
    obtain ⟨stm, hcons, hoptim, hdefm⟩ :=
      add_layer_params_cons_eq st p rest (hk p (List.mem_cons_self _ _))
    obtain ⟨st', heq, hdef, hpres, hspec⟩ :=
      ih stm (fun q hq => hk q (List.mem_cons_of_mem _ hq))
    refine ⟨st', by rw [hcons, heq], by rw [hdef, hdefm], ?_, ?_⟩
    · intro q hq
      rw [List.map_cons, List.mem_cons] at hq
      push_neg at hq
      rw [hpres q hq.2, hoptim, alookup_aset_other _ _ _ _ (Ne.symm hq.1)]
    · intro hnd q hq
      rw [List.map_cons] at hnd
      have hnotin : p.parameter ∉ rest.map (·.parameter) := (List.nodup_cons.mp hnd).1
      have hndrest : (rest.map (·.parameter)).Nodup := (List.nodup_cons.mp hnd).2
      rcases List.mem_cons.mp hq with rfl | hq'
      · rw [hpres q.parameter hnotin, hoptim, alookup_aset_self]
      · rw [hspec hndrest q hq', hdefm]

theorem add_layer_eq_ok (st : ModelState) (l : Layer) (st' : ModelState)
    (h : add_layer_params { st with layers := st.layers ++ [l] } l.params
      = (.ok (), st')) :
    add_layer st l = (.ok l.output_schema, st') := by
  unfold add_layer
  dsimp only
  rw [h]

/-- C7: metrics schema growth without duplicates. `add_metric_field`
fails (assertion) when the name is already a field of the metrics schema
and leaves the schema unchanged; otherwise the metrics schema afterwards
equals the previous schema extended with the single field (name, value);
and no other operation of the class modifies the metrics schema. -/
theorem C7_metrics_schema (st : ModelState) (name : String) (value : Nat) :
    (name ∈ akeys st.metrics_schema →
      add_metric_field st name value = (.error "Try to add metric field twice", st)) ∧
    (name ∉ akeys st.metrics_schema →
      add_metric_field st name value
        = (.ok (), { st with metrics_schema := st.metrics_schema ++ [(name, value)] })) ∧
    (∀ ops : List MOp, (∀ o ∈ ops, ∀ n v, o ≠ MOp.addMetricOp n v) →
      (runOps st ops).metrics_schema = st.metrics_schema) := by
  refine ⟨?_, ?_, ?_⟩
  · intro h; simp [add_metric_field, h]
  · intro h; simp [add_metric_field, h]
  · intro ops hops; exact runOps_metrics ops st hops

theorem C7_witness :
    add_metric_field { emptyModelState with metrics_schema := [("m", 1)] } "m" 2
      = (.error "Try to add metric field twice",
         { emptyModelState with metrics_schema := [("m", 1)] }) ∧
    add_metric_field emptyModelState "m" 1
      = (.ok (), { emptyModelState with metrics_schema := [("m", 1)] }) ∧
    (runOps { emptyModelState with metrics_schema := [("m", 1)] }
        [MOp.addLossOp (.val (.scalarV none)) "l", MOp.clearOutputOp]).metrics_schema
      = [("m", 1)] := by
  have h1 := C7_metrics_schema { emptyModelState with metrics_schema := [("m", 1)] } "m" 2
  have h2 := C7_metrics_schema emptyModelState "m" 1
  refine ⟨h1.1 (by decide), h2.2.1 (by decide), ?_⟩
  exact h1.2.2 [MOp.addLossOp (.val (.scalarV none)) "l", MOp.clearOutputOp]
    (by
      intro o ho n v
      rcases List.mem_cons.mp ho with rfl | ho2
      · simp
      · rcases List.mem_cons.mp ho2 with rfl | ho3
        · simp
        · cases ho3)

/-- C8: the `breakdown_map` setter accepts a value only if it is a dict
with string keys whose sorted value list compares `==` to
`range(len(breakdown_map))`; in every other case it raises and leaves the
stored map unchanged. Since the comparison is between a list and a range
object (Python 3 `==` across these types is `False`), no dict at all can
satisfy it: the setter raises `AssertionError` on every input and the
stored `_breakdown_map` is never changed. -/
theorem C8_breakdown_map_setter (st : ModelState) (arg : BDArg) :
    (set_breakdown_map st arg).2 = st ∧
    (∃ msg, (set_breakdown_map st arg).1 = .error msg) ∧
    (∀ l n, pyEq (PyV.listV l) (PyV.rangeV n) = false) ∧
    (arg = BDArg.notDict →
      (set_breakdown_map st arg).1 = .error "assert isinstance(breakdown_map, dict)") ∧
    (∀ entries, arg = BDArg.dict entries → allStrKeys entries = false →
      (set_breakdown_map st arg).1 = .error "assert all keys are strings failed") ∧
    (∀ entries, arg = BDArg.dict entries → allStrKeys entries = true →
      (set_breakdown_map st arg).1
        = .error "assert sorted(values) == range(len) failed") := by
  have hply : ∀ (l : List Int) (n : Nat), pyEq (PyV.listV l) (PyV.rangeV n) = false :=
    fun _ _ => rfl
  refine ⟨?_, ?_, hply, ?_, ?_, ?_⟩
  · cases arg with
    | notDict => rfl
    | dict es =>
      by_cases hstr : allStrKeys es <;> simp [set_breakdown_map, hstr, hply]
  · cases arg with
    | notDict => exact ⟨_, rfl⟩
    | dict es =>
      by_cases hstr : allStrKeys es
      · exact ⟨"assert sorted(values) == range(len) failed",
          by simp [set_breakdown_map, hstr, hply]⟩
      · exact ⟨"assert all keys are strings failed",
          by simp [set_breakdown_map, hstr]⟩
  · intro h
    subst h
    rfl
  · intro entries h hs
    subst h
    simp [set_breakdown_map, hs]
  · intro entries h hs
    subst h
    simp [set_breakdown_map, hs, hply]

/-- C9: layer-name uniqueness. `next_layer_name` returns the scoped base
name if unused, otherwise `base + '_auto_' + i` for the smallest unused
index; the returned name is never one issued before, it is recorded, the
set grows by exactly this one element and never contains duplicates. -/
theorem C9_next_layer_name (ns : String) (st : ModelState) (pfx : String) :
    (next_layer_name ns st pfx).1 ∉ st.layer_names ∧
    (next_layer_name ns st pfx).2.layer_names
      = st.layer_names ++ [(next_layer_name ns st pfx).1] ∧
    (ns ++ pfx ∉ st.layer_names → (next_layer_name ns st pfx).1 = ns ++ pfx) ∧
    (ns ++ pfx ∈ st.layer_names →
      ∃ i, (next_layer_name ns st pfx).1 = ns ++ pfx ++ "_auto_" ++ natToDec i ∧
        ∀ k, k < i → ns ++ pfx ++ "_auto_" ++ natToDec k ∈ st.layer_names) ∧
    (st.layer_names.Nodup → (next_layer_name ns st pfx).2.layer_names.Nodup) := by
  refine ⟨nextFreshName_not_mem _ _ _, rfl, ?_, ?_, ?_⟩
  · intro h; exact nextFreshName_of_not_mem _ _ _ h
  · intro h
    obtain ⟨i, heq, _, hall⟩ := nextFreshName_spec_mem st.layer_names (ns ++ pfx) "_auto_" h
    exact ⟨i, heq, hall⟩
  · intro hnd
    exact List.Nodup.append hnd (List.nodup_singleton _)
      (by simpa using nextFreshName_not_mem st.layer_names (ns ++ pfx) "_auto_")

theorem C9_witness :
    ((next_layer_name "scope/" { emptyModelState with layer_names := ["scope/fc"] }
        "fc").1 ∉ ["scope/fc"]) ∧
    ((next_layer_name "scope/" { emptyModelState with layer_names := ["scope/fc"] }
        "emb").1 = "scope/" ++ "emb") ∧
    ((next_layer_name "scope/" { emptyModelState with layer_names := ["scope/fc"] }
        "fc").2.layer_names.Nodup) := by
  have h1 := C9_next_layer_name "scope/" { emptyModelState with layer_names := ["scope/fc"] } "fc"
  have h2 := C9_next_layer_name "scope/" { emptyModelState with layer_names := ["scope/fc"] } "emb"
  exact ⟨h1.1, h2.2.2.1 (by decide), h1.2.2.2.2 (by decide)⟩

/-- C10: write-once loss and output schema. The setters raise when the
slot is already set, the getters raise while it is unset,
`clear_output_schema` resets the output schema (after which it can be
assigned again), and the loss, having no reset, can be assigned at most
once through its setter: after a successful assignment, every later
setter call fails, whatever modelled operations run in between. -/
theorem C10_write_once (st : ModelState) (v : List (String × LossVal)) (w : Nat) :
    (st.loss = none → set_loss st v = (.ok (), { st with loss := some v })) ∧
    (∀ f, st.loss = some f → set_loss st v = (.error "assert self loss is None", st)) ∧
    (st.loss = none → get_loss st = .error "assert self loss is not None") ∧
    (∀ f, st.loss = some f → get_loss st = .ok f) ∧
    (st.output_schema = none →
      set_output_schema st w = (.ok (), { st with output_schema := some w })) ∧
    (∀ u, st.output_schema = some u →
      set_output_schema st w = (.error "assert output schema is None", st)) ∧
    (st.output_schema = none →
      get_output_schema st = .error "assert output schema is not None") ∧
    (∀ u, st.output_schema = some u → get_output_schema st = .ok u) ∧
    (clear_output_schema st = { st with output_schema := none }) ∧
    (set_output_schema (clear_output_schema st) w
      = (.ok (), { clear_output_schema st with output_schema := some w })) ∧
    (∀ ops : List MOp, st.loss = none → ∀ v2,
      (set_loss (runOps (set_loss st v).2 ops) v2).1
        = .error "assert self loss is None") := by
  refine ⟨?_, ?_, ?_, ?_, ?_, ?_, ?_, ?_, rfl, ?_, ?_⟩
  · intro h; simp [set_loss, h]
  · intro f h; simp [set_loss, h]
  · intro h; simp [get_loss, h]
  · intro f h; simp [get_loss, h]
  · intro h; simp [set_output_schema, h]
  · intro u h; simp [set_output_schema, h]
  · intro h; simp [get_output_schema, h]
  · intro u h; simp [get_output_schema, h]
  · simp [set_output_schema, clear_output_schema]
  · intro ops hnone v2
    have h1 : (set_loss st v).2.loss.isSome := by simp [set_loss, hnone]
    have h2 := runOps_loss_isSome ops (set_loss st v).2 h1
    obtain ⟨f, hf⟩ := Option.isSome_iff_exists.mp h2
    have hset : ∀ st3 : ModelState, st3.loss = some f →
        (set_loss st3 v2).1 = .error "assert self loss is None" := by
      intro st3 hf3
      simp [set_loss, hf3]
    exact hset _ hf

theorem C10_witness :
    set_loss emptyModelState [("l", .scalarV none)]
      = (.ok (), { emptyModelState with loss := some [("l", .scalarV none)] }) ∧
    set_loss { emptyModelState with loss := some [("l", .scalarV none)] }
        [("l2", .scalarV none)]
      = (.error "assert self loss is None",
         { emptyModelState with loss := some [("l", .scalarV none)] }) ∧
    get_loss emptyModelState = .error "assert self loss is not None" ∧
    get_output_schema { emptyModelState with output_schema := some 5 } = .ok 5 ∧
    set_output_schema (clear_output_schema
        { emptyModelState with output_schema := some 5 }) 7
      = (.ok (), { clear_output_schema
          { emptyModelState with output_schema := some 5 } with output_schema := some 7 }) ∧
    (set_loss (runOps (set_loss emptyModelState [("l", .scalarV none)]).2
        [MOp.clearOutputOp, MOp.addLossOp (.val (.scalarV none)) "x"])
        [("l3", .scalarV none)]).1
      = .error "assert self loss is None" := by
  have h1 := C10_write_once emptyModelState [("l", .scalarV none)] 7
  have h2 := C10_write_once { emptyModelState with loss := some [("l", .scalarV none)] }
    [("l2", .scalarV none)] 7
  have h3 := C10_write_once { emptyModelState with output_schema := some 5 }
    [("l", .scalarV none)] 7
  exact ⟨h1.1 rfl, h2.2.1 [("l", .scalarV none)] rfl, h1.2.2.1 rfl,
    h3.2.2.2.2.2.2.2.1 5 rfl, h3.2.2.2.2.2.2.2.2.2.1,
    h1.2.2.2.2.2.2.2.2.2.2 [MOp.clearOutputOp, MOp.addLossOp (.val (.scalarV none)) "x"]
      rfl [("l3", .scalarV none)]⟩

theorem add_global_constant_nodup_gc (st : ModelState) (n : String) (g : GCInit)
    (d : String) (h : (akeys st.global_constants).Nodup) :
    (akeys (add_global_constant st n g d).2.global_constants).Nodup := by
  by_cases h1 : n ∈ akeys st.global_constants
  · simpa [add_global_constant, h1] using h
  · by_cases h2 : nextBlobName st.used_blobs n ∈ akeys st.global_constant_initializers <;>
      simpa [add_global_constant, h1, h2] using akeys_aset_nodup _ _ _ h

theorem add_global_constant_nodup_gci (st : ModelState) (n : String) (g : GCInit)
    (d : String) (h : (akeys st.global_constant_initializers).Nodup) :
    (akeys (add_global_constant st n g d).2.global_constant_initializers).Nodup := by
  by_cases h1 : n ∈ akeys st.global_constants
  · simpa [add_global_constant, h1] using h
  · by_cases h2 : nextBlobName st.used_blobs n ∈ akeys st.global_constant_initializers
    · simpa [add_global_constant, h1, h2] using h
    · simpa [add_global_constant, h1, h2] using akeys_aset_nodup _ _ _ h

theorem maybe_add_global_constant_nodup_gc (st : ModelState) (n : String) (g : GCInit)
    (d : String) (h : (akeys st.global_constants).Nodup) :
    (akeys (maybe_add_global_constant st n g d).2.global_constants).Nodup := by
  cases hl : alookup st.global_constants n with
  | none =>
    simpa [maybe_add_global_constant, hl] using add_global_constant_nodup_gc st n g d h
  | some blob =>
    cases hl2 : alookup st.global_constant_initializers blob with
    | none => simpa [maybe_add_global_constant, hl, hl2] using h
    | some stored =>
      by_cases he : op_equal (get_global_constant_initializer_op blob g d) stored <;>
        simpa [maybe_add_global_constant, hl, hl2, he] using h

theorem maybe_add_global_constant_nodup_gci (st : ModelState) (n : String) (g : GCInit)
    (d : String) (h : (akeys st.global_constant_initializers).Nodup) :
    (akeys (maybe_add_global_constant st n g d).2.global_constant_initializers).Nodup := by
  cases hl : alookup st.global_constants n with
  | none =>
    simpa [maybe_add_global_constant, hl] using add_global_constant_nodup_gci st n g d h
  | some blob =>
    cases hl2 : alookup st.global_constant_initializers blob with
    | none => simpa [maybe_add_global_constant, hl, hl2] using h
    | some stored =>
      by_cases he : op_equal (get_global_constant_initializer_op blob g d) stored <;>
        simpa [maybe_add_global_constant, hl, hl2, he] using h

/-- C1: global constants are deduplicated by name. `add_global_constant`
fails (assertion) on an already-present name; `maybe_add_global_constant`
on a registered name returns the originally assigned blob name and leaves
both registries untouched, provided the freshly built initializer
operator equals the stored one after clearing `debug_info`; and both
operations keep the keys of both registries duplicate-free, so each name
has at most one blob and each blob at most one initializer operator. -/
theorem C1_global_constant_dedup (st : ModelState) (name : String) (g g' : GCInit)
    (dbg dbg' : String) :
    (name ∈ akeys st.global_constants →
      add_global_constant st name g dbg
        = (.error "already added in global_constants", st)) ∧
    (∀ blob stored, alookup st.global_constants name = some blob →
      alookup st.global_constant_initializers blob = some stored →
      op_equal (get_global_constant_initializer_op blob g' dbg') stored = true →
      maybe_add_global_constant st name g' dbg' = (.ok blob, st)) ∧
    ((akeys st.global_constants).Nodup →
      (akeys (add_global_constant st name g dbg).2.global_constants).Nodup ∧
      (akeys (maybe_add_global_constant st name g' dbg').2.global_constants).Nodup) ∧
    ((akeys st.global_constant_initializers).Nodup →
      (akeys (add_global_constant st name g dbg).2.global_constant_initializers).Nodup ∧
      (akeys (maybe_add_global_constant st name g' dbg').2.global_constant_initializers).Nodup) := by
  refine ⟨?_, ?_, ?_, ?_⟩
  · intro h
    simp [add_global_constant, h]
  · intro blob stored h1 h2 h3
    simp [maybe_add_global_constant, h1, h2, h3]
  · intro h
    exact ⟨add_global_constant_nodup_gc st name g dbg h,
      maybe_add_global_constant_nodup_gc st name g' dbg' h⟩
  · intro h
    exact ⟨add_global_constant_nodup_gci st name g dbg h,
      maybe_add_global_constant_nodup_gci st name g' dbg' h⟩

theorem C1_witness :
    add_global_constant initModelState "ONE"
        (.arr { dtype := .float64, shape := [], values := [1] }) "tb"
      = (.error "already added in global_constants", initModelState) ∧
    maybe_add_global_constant initModelState "ONE"
        (.arr { dtype := .float64, shape := [], values := [1] }) "tb"
      = (.ok "ONE", initModelState) ∧
    (akeys (add_global_constant initModelState "NEW"
        (.arr { dtype := .int32, shape := [1], values := [2] }) "tb").2.global_constants).Nodup := by
  have h := C1_global_constant_dedup initModelState "ONE"
    (.arr { dtype := .float64, shape := [], values := [1] })
    (.arr { dtype := .float64, shape := [], values := [1] }) "tb" "tb"
  have h2 := C1_global_constant_dedup initModelState "NEW"
    (.arr { dtype := .int32, shape := [1], values := [2] })
    (.arr { dtype := .int32, shape := [1], values := [2] }) "tb" "tb"
  refine ⟨h.1 (by decide), ?_, (h2.2.2.1 (by decide)).1⟩
  exact h.2.1 "ONE"
    { op_type := "GivenTensorFill", output := "ONE",
      attrs := [("shape", .intsV []), ("values", .ratsV [1])], debug_info := "" }
    (by decide) (by decide) (by decide)

/-- C4: loss aggregation with collision-free names. `add_loss` requires a
non-None Scalar or Struct; the first loss makes the loss struct the
single-field struct (name, loss); later losses are appended under the
given name when it is free, otherwise under `name + '_auto_' + i` for the
smallest fresh index, so no existing loss entry is overwritten. -/
theorem C4_add_loss (st : ModelState) (v : LossVal) (name : String) :
    (add_loss st .noneArg name = (.error "Added loss should not be None", st)) ∧
    (add_loss st .otherArg name = (.error "Added loss should be a scalar or a struct", st)) ∧
    (st.loss = none →
      add_loss st (.val v) name = (.ok (), { st with loss := some [(name, v)] })) ∧
    (∀ fields, st.loss = some fields →
      ∃ pfx, add_loss st (.val v) name
          = (.ok (), { st with loss := some (fields ++ [(pfx, v)]) }) ∧
        pfx ∉ akeys fields ∧
        (name ∉ akeys fields → pfx = name) ∧
        (name ∈ akeys fields →
          ∃ i, pfx = name ++ "_auto_" ++ natToDec i ∧
            ∀ k, k < i → name ++ "_auto_" ++ natToDec k ∈ akeys fields)) := by
  refine ⟨rfl, rfl, ?_, ?_⟩
  · intro h
    simp [add_loss, h]
  · intro fields h
    refine ⟨nextFreshName (akeys fields) name "_auto_", by simp [add_loss, h],
      nextFreshName_not_mem _ _ _, fun hn => nextFreshName_of_not_mem _ _ _ hn, ?_⟩
    intro hn
    obtain ⟨i, heq, _, hall⟩ := nextFreshName_spec_mem (akeys fields) name "_auto_" hn
    exact ⟨i, heq, hall⟩

theorem C4_witness :
    add_loss emptyModelState .noneArg "x"
      = (.error "Added loss should not be None", emptyModelState) ∧
    add_loss emptyModelState (.val (.scalarV none)) "unnamed"
      = (.ok (), { emptyModelState with loss := some [("unnamed", .scalarV none)] }) ∧
    (∃ pfx, add_loss { emptyModelState with loss := some [("unnamed", .scalarV none)] }
          (.val (.scalarV none)) "unnamed"
        = (.ok (), { emptyModelState with
            loss := some ([("unnamed", LossVal.scalarV none)]
              ++ [(pfx, LossVal.scalarV none)]) }) ∧
      pfx ∉ akeys [("unnamed", LossVal.scalarV none)]) := by
  have h1 := C4_add_loss emptyModelState (.scalarV none) "x"
  have h2 := C4_add_loss emptyModelState (.scalarV none) "unnamed"
  have h3 := C4_add_loss { emptyModelState with loss := some [("unnamed", .scalarV none)] }
    (.scalarV none) "unnamed"
  refine ⟨h1.1, h2.2.2.1 rfl, ?_⟩
  obtain ⟨pfx, heq, hnot, -, -⟩ := h3.2.2.2 [("unnamed", .scalarV none)] rfl
  exact ⟨pfx, heq, hnot⟩

/-- C2: shared-parameter shape consistency. When the resolved parameter
name is already recorded in `_param_to_shape` with a different reference
shape, `create_param` raises `ValueError` and leaves the state (hence the
recorded entry) unchanged; when the name is new or the shape matches, it
succeeds and records (name, shape). The initializer argument is assumed
not to carry its own `shape` key (the code asserts this first). -/
theorem C2_shared_param_shape (resolve : String → String) (st : ModelState)
    (s : String) (shape : Option (List Int))
    (init : String × Option (List (String × AttrVal))) (dbg : String)
    (opt : Option Nat) (reg : Option Reg)
    (hwf : "shape" ∉ akeys (init_op_args init)) :
    (∀ ref, alookup st.param_to_shape (resolve s) = some ref → shape ≠ ref →
      create_param resolve st (.strName s) shape init dbg opt reg
        = (.error "Got inconsistent shapes between shared parameters", st)) ∧
    (alookup st.param_to_shape (resolve s) = none ∨
        alookup st.param_to_shape (resolve s) = some shape →
      ∃ p, create_param resolve st (.strName s) shape init dbg opt reg
          = (.ok p, { st with param_to_shape := aset st.param_to_shape (resolve s) shape })
        ∧ p.parameter = resolve s
        ∧ alookup (aset st.param_to_shape (resolve s) shape) (resolve s) = some shape) := by
  refine ⟨?_, ?_⟩
  · intro ref h1 hne
    cases shape with
    | none => simp [create_param, create_param_named, validate_param_shape, h1, hne]
    | some sh =>
      simp [create_param, create_param_named, validate_param_shape, h1, hne, hwf]
  · intro hor
    have hval : validate_param_shape st (resolve s) shape = .ok () := by
      rcases hor with h | h <;> simp [validate_param_shape, h]
    cases shape with
    | none =>
      refine ⟨{
          parameter := resolve s,
          init_op := (if st.init_params then
            some { op_type := init.1, output := resolve s, attrs := init_op_args init,
                   debug_info := dbg } else none),
          optimizer := opt, regularizer := reg, kind := .layerParameter },
        ?_, rfl, alookup_aset_self _ _ _⟩
      simp [create_param, create_param_named, hval]
    | some sh =>
      refine ⟨{
          parameter := resolve s,
          init_op := (if st.init_params then
            some { op_type := init.1, output := resolve s,
                   attrs := init_op_args init ++ [("shape", .intsV sh)],
                   debug_info := dbg } else none),
          optimizer := opt, regularizer := reg, kind := .layerParameter },
        ?_, rfl, alookup_aset_self _ _ _⟩
      simp [create_param, create_param_named, hwf, hval]

theorem C2_witness :
    create_param (fun x => x)
        { emptyModelState with param_to_shape := [("w", some [2])] }
        (.strName "w") (some [3]) ("XavierFill", none) "tb" none none
      = (.error "Got inconsistent shapes between shared parameters",
         { emptyModelState with param_to_shape := [("w", some [2])] }) ∧
    (∃ p, create_param (fun x => x)
        { emptyModelState with param_to_shape := [("w", some [2])] }
        (.strName "w") (some [2]) ("XavierFill", none) "tb" none none
      = (.ok p, { emptyModelState with
          param_to_shape := aset [("w", some [2])] "w" (some [2]) })
      ∧ p.parameter = "w") := by
  have h1 := C2_shared_param_shape (fun x => x)
    { emptyModelState with param_to_shape := [("w", some [2])] }
    "w" (some [3]) ("XavierFill", none) "tb" none none (by decide)
  have h2 := C2_shared_param_shape (fun x => x)
    { emptyModelState with param_to_shape := [("w", some [2])] }
    "w" (some [2]) ("XavierFill", none) "tb" none none (by decide)
  refine ⟨h1.1 (some [2]) (by decide) (by decide), ?_⟩
  obtain ⟨p, heq, hpar, -⟩ := h2.2 (Or.inr (by decide))
  exact ⟨p, heq, hpar⟩

/-- C3: per-parameter optimizer tracking. After `add_layer` succeeds, every
parameter of the layer is tracked in `param_to_optim` under its blob name,
mapped to its own optimizer when set and to the model's default optimizer
otherwise; `apply_optimizers` asserts every tracked optimizer is not None
and invokes each exactly once with the gradient looked up in `grad_map`
(None when absent). -/
theorem C3_param_optim (st : ModelState) (layer : Layer)
    (grad_map : List (String × String)) :
    ((∀ p ∈ layer.params, p.kind ≠ PKind.otherKind) →
      (layer.params.map (·.parameter)).Nodup →
      ∃ st', add_layer st layer = (.ok layer.output_schema, st') ∧
        ∀ p ∈ layer.params,
          alookup st'.param_to_optim p.parameter
            = some (pyOr p.optimizer st.default_optimizer)) ∧
    ((∀ e ∈ st.param_to_optim, e.2.isSome) →
      apply_optimizers st grad_map
        = (.ok (st.param_to_optim.filterMap fun e =>
            e.2.map fun o =>
              { param := e.1, optim := o, grad := alookup grad_map e.1 }), st)) ∧
    ((∃ e ∈ st.param_to_optim, e.2 = none) →
      ∃ msg, (apply_optimizers st grad_map).1 = .error msg) := by
  refine ⟨?_, ?_, ?_⟩
  · intro hk hnd
    obtain ⟨st', heq, hdef, hpres, hspec⟩ :=
      add_layer_params_lookup layer.params { st with layers := st.layers ++ [layer] } hk
    exact ⟨st', add_layer_eq_ok st layer st' heq, fun p hp => hspec hnd p hp⟩
  · intro hall
    have h := run_optimizers_ok grad_map st.param_to_optim [] hall
    simp [apply_optimizers, h]
  · intro hex
    exact run_optimizers_err grad_map st.param_to_optim [] hex

theorem C3_witness :
    (∃ st', add_layer { emptyModelState with default_optimizer := some 7 }
        { params := [
            { parameter := "w", init_op := none, optimizer := some 1,
              regularizer := none, kind := .layerParameter },
            { parameter := "b", init_op := none, optimizer := none,
              regularizer := none, kind := .parameterInfo }],
          output_schema := 9 }
        = (.ok 9, st') ∧
      alookup st'.param_to_optim "w" = some (some 1) ∧
      alookup st'.param_to_optim "b" = some (some 7)) ∧
    apply_optimizers
        { emptyModelState with param_to_optim := [("w", some 1), ("b", some 7)] }
        [("w", "w_grad")]
      = (.ok [{ param := "w", optim := 1, grad := some "w_grad" },
              { param := "b", optim := 7, grad := none }],
         { emptyModelState with param_to_optim := [("w", some 1), ("b", some 7)] }) ∧
    (∃ msg, (apply_optimizers
        { emptyModelState with param_to_optim := [("x", none)] } []).1
      = .error msg) := by
  have h1 := C3_param_optim { emptyModelState with default_optimizer := some 7 }
    { params := [
        { parameter := "w", init_op := none, optimizer := some 1,
          regularizer := none, kind := .layerParameter },
        { parameter := "b", init_op := none, optimizer := none,
          regularizer := none, kind := .parameterInfo }],
      output_schema := 9 } []
  have h2 := C3_param_optim
    { emptyModelState with param_to_optim := [("w", some 1), ("b", some 7)] }
    { params := [], output_schema := 0 } [("w", "w_grad")]
  have h3 := C3_param_optim
    { emptyModelState with param_to_optim := [("x", none)] }
    { params := [], output_schema := 0 } []
  refine ⟨?_, ?_, ?_⟩
  · obtain ⟨st', heq, hl⟩ := h1.1 (by decide) (by decide)
    exact ⟨st', heq,
      hl { parameter := "w", init_op := none, optimizer := some 1,
           regularizer := none, kind := .layerParameter } (by decide),
      hl { parameter := "b", init_op := none, optimizer := none,
           regularizer := none, kind := .parameterInfo } (by decide)⟩
  · exact h2.2.1 (by decide)
  · exact h3.2.2 ⟨("x", none), by decide, rfl⟩

/-- C6: regularizer application is partitioned. Every tracked
(param, regularizer) pair with a non-None regularizer is invoked by
`apply_regularizers_on_loss` exactly when `apply_after_optimizer` is
false (each invocation adding one loss entry named after the returned
blob), and by `apply_regularizers_after_optimizer` (with the gradient
from `grad_map`) exactly when the flag is true; None regularizers are
skipped by both. -/
theorem C6_regularizer_partition (runReg : Nat → String → String) (st : ModelState)
    (grad_map : List (String × String)) :
    (apply_regularizers_on_loss runReg st).1
      = st.param_to_reg.filterMap (fun e =>
          match e.2 with
          | some r => if r.apply_after_optimizer then none else some (e.1, r.rid)
          | none => none) ∧
    (apply_regularizers_after_optimizer st grad_map).1
      = st.param_to_reg.filterMap (fun e =>
          match e.2 with
          | some r =>
            if r.apply_after_optimizer then some (e.1, r.rid, alookup grad_map e.1)
            else none
          | none => none) ∧
    (apply_regularizers_after_optimizer st grad_map).2 = st ∧
    lossSize (apply_regularizers_on_loss runReg st).2
      = lossSize st + (apply_regularizers_on_loss runReg st).1.length ∧
    (∀ p r, (p, some r) ∈ st.param_to_reg →
      (r.apply_after_optimizer = false →
        (p, r.rid) ∈ (apply_regularizers_on_loss runReg st).1) ∧
      (r.apply_after_optimizer = true →
        (p, r.rid, alookup grad_map p)
          ∈ (apply_regularizers_after_optimizer st grad_map).1)) ∧
    (∀ x ∈ (apply_regularizers_on_loss runReg st).1,
      ∃ r, (x.1, some r) ∈ st.param_to_reg ∧ r.apply_after_optimizer = false ∧
        r.rid = x.2) ∧
    (∀ y ∈ (apply_regularizers_after_optimizer st grad_map).1,
      ∃ r, (y.1, some r) ∈ st.param_to_reg ∧ r.apply_after_optimizer = true ∧
        r.rid = y.2.1) := by
  have h1 := run_reg_on_loss_spec runReg st.param_to_reg st []
  have hfst : (apply_regularizers_on_loss runReg st).1
      = st.param_to_reg.filterMap (fun e =>
          match e.2 with
          | some r => if r.apply_after_optimizer then none else some (e.1, r.rid)
          | none => none) := by
    have := h1.1
    simpa [apply_regularizers_on_loss] using this
  have hsnd := run_reg_after_spec grad_map st.param_to_reg
  refine ⟨hfst, hsnd, rfl, ?_, ?_, ?_, ?_⟩
  · have hsz := h1.2.2.2.2.2.2
    rw [show (apply_regularizers_on_loss runReg st).2
        = (run_reg_on_loss runReg st.param_to_reg st []).2 from rfl, hsz, hfst]
  · intro p r hmem
    constructor
    · intro hfalse
      rw [hfst]
      exact List.mem_filterMap.mpr ⟨(p, some r), hmem, by simp [hfalse]⟩
    · intro htrue
      rw [show (apply_regularizers_after_optimizer st grad_map).1
          = run_reg_after grad_map st.param_to_reg from rfl, hsnd]
      exact List.mem_filterMap.mpr ⟨(p, some r), hmem, by simp [htrue]⟩
  · intro x hx
    rw [hfst] at hx
    obtain ⟨e, he, hfe⟩ := List.mem_filterMap.mp hx
    obtain ⟨q, ro⟩ := e
    cases ro with
    | none => simp at hfe
    | some r =>
      by_cases haft : r.apply_after_optimizer
      · simp [haft] at hfe
      · simp [haft] at hfe
        subst hfe
        exact ⟨r, he, by simpa using haft, rfl⟩
  · intro y hy
    rw [show (apply_regularizers_after_optimizer st grad_map).1
        = run_reg_after grad_map st.param_to_reg from rfl, hsnd] at hy
    obtain ⟨e, he, hfe⟩ := List.mem_filterMap.mp hy
    obtain ⟨q, ro⟩ := e
    cases ro with
    | none => simp at hfe
    | some r =>
      by_cases haft : r.apply_after_optimizer
      · simp [haft] at hfe
        subst hfe
        exact ⟨r, he, haft, rfl⟩
      · simp [haft] at hfe

theorem C6_witness :
    (apply_regularizers_on_loss (fun _ p => p ++ "_reg")
        { emptyModelState with param_to_reg :=
          [("w", some { apply_after_optimizer := false, rid := 1 }),
           ("b", some { apply_after_optimizer := true, rid := 2 }),
           ("c", none)] }).1 = [("w", 1)] ∧
    (apply_regularizers_after_optimizer
        { emptyModelState with param_to_reg :=
          [("w", some { apply_after_optimizer := false, rid := 1 }),
           ("b", some { apply_after_optimizer := true, rid := 2 }),
           ("c", none)] } [("b", "b_grad")]).1 = [("b", 2, some "b_grad")] ∧
    lossSize (apply_regularizers_on_loss (fun _ p => p ++ "_reg")
        { emptyModelState with param_to_reg :=
          [("w", some { apply_after_optimizer := false, rid := 1 }),
           ("b", some { apply_after_optimizer := true, rid := 2 }),
           ("c", none)] }).2 = 1 := by
  have h := C6_regularizer_partition (fun _ p => p ++ "_reg")
    { emptyModelState with param_to_reg :=
      [("w", some { apply_after_optimizer := false, rid := 1 }),
       ("b", some { apply_after_optimizer := true, rid := 2 }),
       ("c", none)] } [("b", "b_grad")]
  refine ⟨?_, ?_, ?_⟩
  · exact h.1
  · exact h.2.1
  · have := h.2.2.2.1
    rw [h.1] at this
    exact this

/-- C5: init-net construction. A net returned by `create_init_net`
contains exactly the recorded initializer operators (one per registered
blob); after construction, the constants ONE = 1.0, ZERO = 0.0 and
ZERO_RANGE = [0, 0] (int32) are registered and appear in
`param_init_net`; registrations survive every modelled operation, so the
three constants appear in every init net created later. -/
theorem C5_init_net (st : ModelState) (name : String) :
    ((create_init_net st name).ops = st.global_constant_initializers.map (·.2)) ∧
    ((create_init_net st name).ops.length = st.global_constant_initializers.length) ∧
    (∀ cn b, alookup st.global_constants cn = some b →
      ∀ op, alookup st.global_constant_initializers b = some op →
        op ∈ (create_init_net st name).ops) ∧
    (alookup initModelState.global_constants "ONE" = some "ONE" ∧
     alookup initModelState.global_constants "ZERO" = some "ZERO" ∧
     alookup initModelState.global_constants "ZERO_RANGE" = some "ZERO_RANGE" ∧
     alookup initModelState.global_constant_initializers "ONE"
       = some { op_type := "GivenTensorFill", output := "ONE",
                attrs := [("shape", .intsV []), ("values", .ratsV [1])],
                debug_info := "" } ∧
     alookup initModelState.global_constant_initializers "ZERO_RANGE"
       = some { op_type := "GivenTensorIntFill", output := "ZERO_RANGE",
                attrs := [("shape", .intsV [2]), ("values", .ratsV [0, 0])],
                debug_info := "" } ∧
     initModelState.param_init_net = create_init_net initModelState "param_init_net" ∧
     initModelState.param_init_net.ops.length = 3) ∧
    (∀ ops : List MOp, ∀ cn b op,
      alookup initModelState.global_constants cn = some b →
      alookup initModelState.global_constant_initializers b = some op →
      alookup (runOps initModelState ops).global_constants cn = some b ∧
      op ∈ (create_init_net (runOps initModelState ops) name).ops) := by
  refine ⟨rfl, by simp [create_init_net], ?_, ?_, ?_⟩
  · intro cn b _ op hop
    exact alookup_mem_values _ _ _ hop
  · exact ⟨by decide, by decide, by decide, by decide, by decide, rfl, by decide⟩
  · intro ops cn b op h1 h2
    refine ⟨runOps_gc_preserved ops initModelState cn b h1, ?_⟩
    have h3 := runOps_gci_preserved ops initModelState b op h2
    exact alookup_mem_values _ _ _ h3

theorem C5_witness :
    (create_init_net initModelState "pred_init_net").ops.length = 3 ∧
    ({ op_type := "GivenTensorFill", output := "ONE",
       attrs := [("shape", AttrVal.intsV []), ("values", AttrVal.ratsV [1])],
       debug_info := "" } : OperatorDef)
      ∈ (create_init_net initModelState "pred_init_net").ops ∧
    alookup (runOps initModelState [MOp.addGCOp "NEW"
        (.arr { dtype := .int32, shape := [1], values := [5] }) "d"]).global_constants
      "ONE" = some "ONE" ∧
    ({ op_type := "GivenTensorFill", output := "ONE",
       attrs := [("shape", AttrVal.intsV []), ("values", AttrVal.ratsV [1])],
       debug_info := "" } : OperatorDef)
      ∈ (create_init_net (runOps initModelState [MOp.addGCOp "NEW"
          (.arr { dtype := .int32, shape := [1], values := [5] }) "d"])
          "pred_init_net").ops := by
  have h := C5_init_net initModelState "pred_init_net"
  have h5 := h.2.2.2.2 [MOp.addGCOp "NEW"
      (.arr { dtype := .int32, shape := [1], values := [5] }) "d"]
    "ONE" "ONE"
    { op_type := "GivenTensorFill", output := "ONE",
      attrs := [("shape", AttrVal.intsV []), ("values", AttrVal.ratsV [1])],
      debug_info := "" }
    (by decide) (by decide)
  exact ⟨h.2.1, h.2.2.1 "ONE" "ONE" (by decide) _ (by decide), h5.1, h5.2⟩

theorem C8_witness :
    (set_breakdown_map emptyModelState BDArg.notDict).2 = emptyModelState ∧
    (set_breakdown_map emptyModelState BDArg.notDict).1
      = .error "assert isinstance(breakdown_map, dict)" ∧
    (set_breakdown_map emptyModelState (BDArg.dict [(.strK "a", 0)])).1
      = .error "assert sorted(values) == range(len) failed" ∧
    (set_breakdown_map emptyModelState (BDArg.dict [(.intK 3, 0)])).1
      = .error "assert all keys are strings failed" := by
  have h1 := C8_breakdown_map_setter emptyModelState BDArg.notDict
  have h2 := C8_breakdown_map_setter emptyModelState (BDArg.dict [(.strK "a", 0)])
  have h3 := C8_breakdown_map_setter emptyModelState (BDArg.dict [(.intK 3, 0)])
  exact ⟨h1.1, h1.2.2.2.1 rfl, h2.2.2.2.2.2 [(.strK "a", 0)] rfl (by decide),
    h3.2.2.2.2.1 [(.intK 3, 0)] rfl (by decide)⟩
